import Mathlib

/-!
# flex-node-similaritybot: the FAQ matching engine of `src/index.js`

A shallow embedding of the decision logic of `src/index.js`:
`detectLanguage`, `cosineSimilarity`, `logConversation` and the `/ask` handler.

Modelling conventions.

* A JavaScript string is a Lean `String` (a sequence of Unicode scalar values);
  `text.length` counts UTF-16 code units (`jsLength`).  Lone surrogates are
  outside the model.
* JavaScript numbers are modelled over exact arithmetic: the finite numbers are
  the elements of a linearly ordered field `α` (the theorems about cosine
  similarity take `α = ℝ`), and `JSNum α` adds the non-finite values that a
  division can produce.  Rounding, overflow and the sign of zero are not
  modelled, with one exception: `sqrtBinary64` is the square root rounded to
  the nearest double, to show where a bound depends on exact arithmetic.
* Built-ins and collaborators whose code is not part of the repository are
  parameters: `String.prototype.toLowerCase`, `Math.sqrt`, the classifier
  `franc` and the embedding pipeline `featureExtractor` (which may throw,
  modelled by `none`).
* The handler is a state-passing function on `World`, which records the lines
  appended to the conversation log files, the texts handed to the embedding
  collaborator and the console output.  Clock reads and the random draw are
  inputs (`Ambient`).  The file-system append of `logConversation` is modelled
  as always succeeding.
-/

namespace SimilarityBot

/-! ## Strings -/

/-- Number of UTF-16 code units of one code point. -/
def utf16Units (c : Char) : Nat :=
  if c.toNat < 65536 then 1 else 2

/-- The JavaScript `text.length`: the number of UTF-16 code units. -/
def jsLength (text : String) : Nat :=
  (text.data.map utf16Units).sum

/-- Membership in the character class `[က-႟]`. -/
def isMyanmar (c : Char) : Bool :=
  decide (0x1000 ≤ c.toNat) && decide (c.toNat ≤ 0x109F)

/-- The test `/[က-႟]/.test(text)`. -/
def hasMyanmar (text : String) : Bool :=
  text.data.any isMyanmar

/-- White space and line terminators removed by `String.prototype.trim`. -/
def isJsWhiteSpace (c : Char) : Bool :=
  let n := c.toNat
  n == 0x09 || n == 0x0A || n == 0x0B || n == 0x0C || n == 0x0D || n == 0x20 ||
  n == 0xA0 || n == 0x1680 || (decide (0x2000 ≤ n) && decide (n ≤ 0x200A)) ||
  n == 0x2028 || n == 0x2029 || n == 0x202F || n == 0x205F || n == 0x3000 ||
  n == 0xFEFF

/-- The JavaScript `s.trim()`. -/
def jsTrim (s : String) : String :=
  String.mk ((s.data.dropWhile isJsWhiteSpace).reverse.dropWhile isJsWhiteSpace).reverse

/-- Lower-casing of the letters `A`..`Z` only; a concrete stand-in for
`toLowerCase` on ASCII text, used in the worked examples. -/
def asciiLower (s : String) : String :=
  String.mk (s.data.map Char.toLower)

/-! ## Language detection -/

/-- A result of the classifier `franc`: a three-letter ISO 639-3 code, or the
three-letter `und` when it is inconclusive. -/
structure SourceCode where
  code : String
  three : code.length = 3

/-- The table `langMap` (ISO 639-3 to internal codes); `none` is `undefined`. -/
def langMap (raw : String) : Option String :=
  if raw = "eng" then some "en"
  else if raw = "mya" then some "my"
  else if raw = "jpn" then some "ja"
  else if raw = "tha" then some "th"
  else none

/-- The function `detectLanguage(text)`. -/
def detectLanguage (toLowerCase : String → String) (franc : String → Nat → SourceCode)
    (text : String) : String :=
  if hasMyanmar text then "my"
  else if jsLength text ≤ 5 then
    let t := toLowerCase text
    if ["hi", "hello", "hey"].contains t then "en" else "en"
  else
    let raw := franc text 3
    (langMap raw.code).getD "en"

/-! ## Numbers and cosine similarity -/

/-- A JavaScript number over exact arithmetic: a finite number, an infinity or
`NaN`. -/
inductive JSNum (α : Type) where
  | num (x : α)
  | posInf
  | negInf
  | nan
  deriving DecidableEq, Repr

/-- The comparison `a > b` of JavaScript numbers (false when either is `NaN`). -/
def JSNum.gt {α : Type} [LinearOrderedField α] : JSNum α → JSNum α → Bool
  | .num x, .num y => decide (y < x)
  | .posInf, .num _ => true
  | .posInf, .negInf => true
  | .num _, .negInf => true
  | _, _ => false

/-- The quotient `x / y` of two finite numbers, `y` not negative zero. -/
def JSNum.div {α : Type} [LinearOrderedField α] (x y : α) : JSNum α :=
  if y ≠ 0 then .num (x / y)
  else if 0 < x then .posInf
  else if x < 0 then .negInf
  else .nan

/-- The loop of `cosineSimilarity`: the accumulators `(dot, na, nb)` after the
remaining components of `a`; `none` when `b[i]` is `undefined` for some index
(the accumulators `dot` and `nb` are then `NaN`). -/
def cosineLoop {α : Type} [LinearOrderedField α] :
    List α → List α → α × α × α → Option (α × α × α)
  | [], _, acc => some acc
  | _ :: _, [], _ => none
  | x :: a, y :: b, (dot, na, nb) => cosineLoop a b (dot + x * y, na + x * x, nb + y * y)

/-- The function `cosineSimilarity(a, b)`. -/
def cosineSimilarity {α : Type} [LinearOrderedField α] (sqrt : α → α) (a b : List α) :
    JSNum α :=
  match cosineLoop a b (0, 0, 0) with
  | none => .nan
  | some (dot, na, nb) => JSNum.div dot (sqrt na * sqrt nb)

/-- The `forEach` scan of the handler from index `i` on: the pair
`(maxSim, bestIdx)` after the remaining vectors. -/
def scanFrom {α : Type} [LinearOrderedField α] (sqrt : α → α) (qVec : List α) :
    List (List α) → Nat → JSNum α × Int → JSNum α × Int
  | [], _, st => st
  | vec :: rest, i, (maxSim, bestIdx) =>
    let sim := cosineSimilarity sqrt qVec vec
    scanFrom sqrt qVec rest (i + 1) (if sim.gt maxSim then (sim, (i : Int)) else (maxSim, bestIdx))

/-- The similarity scan of the handler: `maxSim = -1`, `bestIdx = -1`, then
`embLang.forEach(...)`. -/
def scan {α : Type} [LinearOrderedField α] (sqrt : α → α) (qVec : List α)
    (embLang : List (List α)) : JSNum α × Int :=
  scanFrom sqrt qVec embLang 0 (.num (-1), -1)

/-! ## Data model -/

/-- A record of `customer_support.json`. -/
structure FaqEntry where
  id : Nat
  lang : String
  question : String
  answer : String
  image : Option String
  deriving DecidableEq, Repr

/-- The object handed to `logConversation`. -/
structure LogEntry (α : Type) where
  timestamp : String
  userQuery : String
  detectedLanguage : String
  faqId : Option Nat
  similarityScore : JSNum α
  answer : String
  deriving DecidableEq, Repr

/-- What the handler sends: `res.json(replyObj)` (status 200) or
`res.status(code).json(error)`. -/
inductive Response (α : Type) where
  | reply (reply : String) (image : Option String) (thinking_time : α)
  | error (status : Nat) (error : String)
  deriving DecidableEq, Repr

/-- The module-level state and the collaborators the handler reads. -/
structure Env (α : Type) where
  toLowerCase : String → String
  sqrt : α → α
  franc : String → Nat → SourceCode
  featureExtractor : String → Option (List α)
  customerSupportData : List FaqEntry
  questionEmbeddings : List (String × List (List α))

/-- The clock reads and the random draw of one request. -/
structure Ambient (α : Type) where
  random : α
  timestamp : String
  day : String

/-- The effects of the handler: the lines appended to the log files (file
name without extension, entry), the texts handed to `featureExtractor`, and
the console lines. -/
structure World (α : Type) where
  logFiles : List (String × LogEntry α)
  embedCalls : List String
  console : List String

/-- The function `logConversation(entry)`: one line appended to the file of the
day. -/
def logConversation {α : Type} (day : String) (entry : LogEntry α) (w : World α) :
    World α :=
  ⟨w.logFiles ++ [(day, entry)], w.embedCalls, w.console⟩

/-- The call `await featureExtractor(text, ...)`, recorded in the world. -/
def callExtractor {α : Type} (env : Env α) (text : String) (w : World α) :
    Option (List α) × World α :=
  (env.featureExtractor text, ⟨w.logFiles, w.embedCalls ++ [text], w.console⟩)

/-- A console line. -/
def consoleLog {α : Type} (line : String) (w : World α) : World α :=
  ⟨w.logFiles, w.embedCalls, w.console ++ [line]⟩

/-- The lookup `questionEmbeddings[lang]` of an own property. -/
def lookupEmbeddings {α : Type} (index : List (String × List (List α))) (lang : String) :
    Option (List (List α)) :=
  (index.find? (fun p => p.1 == lang)).map Prod.snd

/-- The indexing `xs[i]` for a number `i`; `none` is `undefined`. -/
def jsIndex {β : Type} (xs : List β) (i : Int) : Option β :=
  if i < 0 then none else xs.get? i.toNat

/-- The string `noMsg.en`. -/
def noMsgEn : String := "I'm sorry, I couldn't find an answer."

/-- The table `noMsg`; `none` is `undefined`. -/
def noMsg (lang : String) : Option String :=
  if lang = "en" then some noMsgEn
  else if lang = "my" then some "စိတ်မရှိပါနဲ့ နီးစပ်သောအဖြေမတွေ့ပါ"
  else if lang = "ja" then some "申し訳ありません、回答が見つかりません。"
  else if lang = "th" then some "ขออภัย ไม่พบคำตอบ"
  else none

/-- The expression `noMsg[detectedLang] || noMsg.en`. -/
def fallbackMessage (detectedLang : String) : String :=
  (noMsg detectedLang).getD noMsgEn

/-- The constant `detectedLang` of the handler for the trimmed query. -/
abbrev detectedLang {α : Type} (env : Env α) (userQuery : String) : String :=
  detectLanguage env.toLowerCase env.franc userQuery

/-- The predicate of the exact-match `find`. -/
def isExact {α : Type} (env : Env α) (detectedLang userQuery : String) (f : FaqEntry) : Bool :=
  f.lang == detectedLang && env.toLowerCase f.question == env.toLowerCase userQuery

/-- The list `faqLang`: the corpus entries of the detected language. -/
def faqLang {α : Type} (env : Env α) (detectedLang : String) : List FaqEntry :=
  env.customerSupportData.filter (fun f => f.lang == detectedLang)

/-- The list `embLang`: `questionEmbeddings[detectedLang] || []`. -/
def embLang {α : Type} (env : Env α) (detectedLang : String) : List (List α) :=
  (lookupEmbeddings env.questionEmbeddings detectedLang).getD []

/-- The `else` branch of the threshold decision: the fallback reply and its
log entry. -/
def noMatch {α : Type} [LinearOrderedField α] (amb : Ambient α) (userQuery detectedLang : String)
    (maxSim : JSNum α) (w : World α) : Response α × World α :=
  let msg := fallbackMessage detectedLang
  (.reply msg none (amb.random * 500 + 300),
   logConversation amb.day
     ⟨amb.timestamp, userQuery, detectedLang, none, maxSim, msg⟩ w)

/-- The handler of `POST /ask`; `question` is the string `req.body.question`,
`none` when it is missing or `null`. -/
def ask {α : Type} [LinearOrderedField α] (env : Env α) (amb : Ambient α)
    (question : Option String) (w : World α) : Response α × World α :=
  match question.map jsTrim with
  | none => (.error 400 "Missing question", w)
  | some userQuery =>
    if userQuery = "" then (.error 400 "Missing question", w)
    else
      let detectedLang := detectLanguage env.toLowerCase env.franc userQuery
      let w := consoleLog ("🌏 Detected Language: " ++ detectedLang) w
      let w := consoleLog ("💬 User Query: " ++ userQuery) w
      match env.customerSupportData.find? (isExact env detectedLang userQuery) with
      | some exact =>
        let w := logConversation amb.day
          ⟨amb.timestamp, userQuery, detectedLang, some exact.id, .num 1, exact.answer⟩ w
        (.reply exact.answer exact.image (amb.random * 500 + 300), w)
      | none =>
        match callExtractor env userQuery w with
        | (none, w) => (.error 500 "Internal server error", consoleLog " /ask error:" w)
        | (some qVec, w) =>
          let (maxSim, bestIdx) := scan env.sqrt qVec (embLang env detectedLang)
          if maxSim.gt (.num (6 / 10)) then
            match jsIndex (faqLang env detectedLang) bestIdx with
            | some matched =>
              let w := logConversation amb.day
                ⟨amb.timestamp, userQuery, detectedLang, some matched.id, maxSim,
                  matched.answer⟩ w
              (.reply matched.answer matched.image (amb.random * 500 + 300), w)
            | none => noMatch amb userQuery detectedLang maxSim w
          else noMatch amb userQuery detectedLang maxSim w

/-! ## Bootstrap -/

/-- Names that every object inherits from `Object.prototype`: for such a name
`questionEmbeddings[name]` is not `undefined` before any assignment. -/
def inheritedKeys : List String :=
  ["constructor", "__defineGetter__", "__defineSetter__", "hasOwnProperty",
   "__lookupGetter__", "__lookupSetter__", "isPrototypeOf", "propertyIsEnumerable",
   "toString", "valueOf", "__proto__", "toLocaleString"]

/-- The statement `questionEmbeddings[lang].push(vec)` on an existing own
property. -/
def pushTo {α : Type} (lang : String) (vec : List α) :
    List (String × List (List α)) → List (String × List (List α))
  | [] => []
  | (k, vs) :: rest =>
    if k == lang then (k, vs ++ [vec]) :: rest else (k, vs) :: pushTo lang vec rest

/-- The body of the loop of `initializeAI` after the embedding is computed:
create the bucket when it is missing, then push.  `none` is the `TypeError` of
a push on an inherited member. -/
def pushEmbedding {α : Type} (index : List (String × List (List α))) (lang : String)
    (vec : List α) : Option (List (String × List (List α))) :=
  match lookupEmbeddings index lang with
  | some _ => some (pushTo lang vec index)
  | none =>
    if inheritedKeys.contains lang then none
    else some (index ++ [(lang, [vec])])

/-- The loop of `initializeAI` over the remaining corpus; `none` when the
embedding collaborator throws or a push fails. -/
def initializeLoop {α : Type} (featureExtractor : String → Option (List α)) :
    List FaqEntry → List (String × List (List α)) → Option (List (String × List (List α)))
  | [], index => some index
  | item :: rest, index =>
    match featureExtractor item.question with
    | none => none
    | some emb =>
      match pushEmbedding index item.lang emb with
      | none => none
      | some index => initializeLoop featureExtractor rest index

/-- The function `initializeAI()`: the index built from the corpus, starting
from the empty object. -/
def initializeAI {α : Type} (featureExtractor : String → Option (List α))
    (corpus : List FaqEntry) : Option (List (String × List (List α))) :=
  initializeLoop featureExtractor corpus []

/-! ## A rounded square root -/

/-- Integer square root by bits: the greatest `r + c` with `c < 2 ^ b` and
`(r + c) ^ 2 ≤ n`, for `r` a multiple of `2 ^ b` with `r ^ 2 ≤ n`. -/
def isqrtBits (n : Nat) : Nat → Nat → Nat
  | 0, r => r
  | b + 1, r =>
    if (r + 2 ^ b) * (r + 2 ^ b) ≤ n then isqrtBits n b (r + 2 ^ b) else isqrtBits n b r

/-- The position of the leading bit of `n` (0 for `n < 2`), for numbers of
fewer bits than the first argument. -/
def log2Fuel : Nat → Nat → Nat
  | 0, _ => 0
  | f + 1, n => if n < 2 then 0 else log2Fuel f (n / 2) + 1

/-- Significand `m` and exponent `e` of the binary64 number `m * 2 ^ e`
nearest to the square root of `p / q` (ties to even), for `p`, `q` positive:
the argument is scaled by a power of 4 into `[2 ^ 104, 2 ^ 106)`, so that its
root has 53 bits. -/
def sqrtBinary64Bits (p q : Nat) : Nat × Int :=
  let l0 : Int := (log2Fuel 2200 p : Int) - (log2Fuel 2200 q : Int)
  let l : Int := if q * 2 ^ l0.toNat ≤ p * 2 ^ (-l0).toNat then l0 else l0 - 1
  let h : Int := l / 2
  let k : Int := 52 - h
  let scaledNum : Nat := p * 4 ^ k.toNat
  let scaledDen : Nat := q * 4 ^ (-k).toNat
  let m : Nat := isqrtBits (scaledNum / scaledDen) 53 0
  let up : Bool := decide ((2 * m + 1) ^ 2 * scaledDen < 4 * scaledNum) ||
    (decide ((2 * m + 1) ^ 2 * scaledDen = 4 * scaledNum) && decide (m % 2 = 1))
  (if up then m + 1 else m, h - 52)

/-- The value of `Math.sqrt(x)` that IEEE 754 requires for a double `x ≥ 0`:
the binary64 number nearest to the exact square root.  Overflow and subnormal
results are outside the model; the argument of `Math.sqrt` in
`cosineSimilarity` is a sum of squares, never negative. -/
def sqrtBinary64 (x : ℚ) : ℚ :=
  if x ≤ 0 then 0
  else ((sqrtBinary64Bits x.num.toNat x.den).1 : ℚ) * 2 ^ (sqrtBinary64Bits x.num.toNat x.den).2

/-! ## Data of the worked examples -/

/-- A classifier that answers the same code for every text. -/
def francConst (code : SourceCode) : String → Nat → SourceCode :=
  fun _ _ => code

/-- The classifier result `eng`. -/
def codeEng : SourceCode := ⟨"eng", rfl⟩

/-- The classifier result `jpn`. -/
def codeJpn : SourceCode := ⟨"jpn", rfl⟩

/-- The classifier result `und` (inconclusive). -/
def codeUnd : SourceCode := ⟨"und", rfl⟩

/-- The query vector of the worked examples of the scan. -/
def exQVec {α : Type} [LinearOrderedField α] : List α := [1, 0, 0, 0]

/-- A bucket of three unit vectors whose similarities to `exQVec` are 0.3, 0.9
and 0.9. -/
def exBucket {α : Type} [LinearOrderedField α] : List (List α) :=
  [[3 / 10, 9 / 10, 3 / 10, 1 / 10], [9 / 10, 3 / 10, 3 / 10, 1 / 10],
   [9 / 10, 1 / 10, 3 / 10, 3 / 10]]

/-- The corpus of the worked examples. -/
def exCorpus : List FaqEntry :=
  [⟨1, "en", "Hi", "Hello! How can I help you?", none⟩,
   ⟨2, "en", "What are your opening hours?", "We are open from 9 to 5.", some "hours.png"⟩,
   ⟨3, "ja", "営業時間を教えてください", "営業時間は9時から17時までです。", none⟩]

/-- An embedding collaborator for the worked examples: unit vectors of the
plane for six texts, a failure for every other text. -/
def exExtractor {α : Type} [LinearOrderedField α] (text : String) : Option (List α) :=
  if text = "Hi" then some [0, 1]
  else if text = "What are your opening hours?" then some [3 / 5, 4 / 5]
  else if text = "営業時間を教えてください" then some [1, 0]
  else if text = "when are you open" then some [1, 0]
  else if text = "opening hours please" then some [3 / 5, 4 / 5]
  else if text = "မင်္ဂလာပါ" then some [0, 1]
  else none

/-- The index that `initializeAI` builds from `exCorpus` with `exExtractor`. -/
def exIndex {α : Type} [LinearOrderedField α] : List (String × List (List α)) :=
  [("en", [[0, 1], [3 / 5, 4 / 5]]), ("ja", [[1, 0]])]

/-- The environment of the worked examples, for a given square root. -/
def exEnv {α : Type} [LinearOrderedField α] (sqrt : α → α) : Env α :=
  ⟨asciiLower, sqrt, francConst codeEng, exExtractor, exCorpus, exIndex⟩

/-- The clock reads and the random draw of the worked examples. -/
def exAmbient {α : Type} [LinearOrderedField α] : Ambient α :=
  ⟨1 / 2, "2024-05-01T10:00:00+00:00", "2024-05-01"⟩

/-- The world before the request of the worked examples. -/
def exWorld {α : Type} : World α := ⟨[], [], []⟩

/-- The vector `(8, 9) / √145` as the embedding collaborator delivers it:
normalised and rounded to float32. -/
def exUnitF32 : List ℚ := [174159 / 262144, 1567431 / 2097152]

/-- A one-entry corpus. -/
def roundedCorpus : List FaqEntry :=
  [⟨1, "en", "Opening hours", "We are open from 9 to 5.", none⟩]

/-- A collaborator that embeds the question of `roundedCorpus` and the same
words with two spaces to the same vector, and fails on every other text. -/
def roundedExtractor (text : String) : Option (List ℚ) :=
  if text = "Opening hours" then some exUnitF32
  else if text = "opening  hours" then some exUnitF32
  else none

/-- An environment whose square root is rounded to the nearest double. -/
def roundedEnv : Env ℚ :=
  ⟨asciiLower, sqrtBinary64, francConst codeEng, roundedExtractor, roundedCorpus,
    [("en", [exUnitF32])]⟩

/-! ## Language detection: theorems -/

theorem detectLanguage_of_myanmar (toLowerCase : String → String)
    (franc : String → Nat → SourceCode) (text : String) (h : hasMyanmar text = true) :
    detectLanguage toLowerCase franc text = "my" := by
  simp [detectLanguage, h]

theorem detectLanguage_of_short (toLowerCase : String → String)
    (franc : String → Nat → SourceCode) (text : String) (h : hasMyanmar text = false)
    (hlen : jsLength text ≤ 5) :
    detectLanguage toLowerCase franc text = "en" := by
  simp [detectLanguage, h, hlen]

theorem detectLanguage_of_long (toLowerCase : String → String)
    (franc : String → Nat → SourceCode) (text : String) (h : hasMyanmar text = false)
    (hlen : 5 < jsLength text) :
    detectLanguage toLowerCase franc text = (langMap (franc text 3).code).getD "en" := by
  have hn : ¬ jsLength text ≤ 5 := Nat.not_le.mpr hlen
  simp [detectLanguage, h, hn]

theorem langMap_getD_mem (raw : String) :
    (langMap raw).getD "en" = "en" ∨ (langMap raw).getD "en" = "my" ∨
    (langMap raw).getD "en" = "ja" ∨ (langMap raw).getD "en" = "th" := by
  unfold langMap
  split_ifs <;> simp

/-- C4: a text that contains a code point of the Myanmar block
(U+1000..U+109F) is detected as `my`, whatever its length and whatever the
classifier answers. -/
theorem detectLanguage_myanmar_override (toLowerCase : String → String)
    (franc : String → Nat → SourceCode) (text : String)
    (h : ∃ c ∈ text.data, 0x1000 ≤ c.toNat ∧ c.toNat ≤ 0x109F) :
    detectLanguage toLowerCase franc text = "my" := by
  apply detectLanguage_of_myanmar
  obtain ⟨c, hc, h1, h2⟩ := h
  simp only [hasMyanmar, List.any_eq_true]
  exact ⟨c, hc, by simp [isMyanmar, h1, h2]⟩

/-- C4, worked example: a long Myanmar sentence with an English word, with a
classifier that answers `eng`. -/
theorem detectLanguage_myanmar_override_witness :
    (∃ c ∈ "မင်္ဂလာပါ hello world".data, 0x1000 ≤ c.toNat ∧ c.toNat ≤ 0x109F) ∧
    5 < jsLength "မင်္ဂလာပါ hello world" ∧
    detectLanguage asciiLower (francConst codeEng) "မင်္ဂလာပါ hello world" = "my" :=
  ⟨⟨'မ', by decide, by decide, by decide⟩, by decide,
    detectLanguage_myanmar_override asciiLower (francConst codeEng) "မင်္ဂလာပါ hello world"
      ⟨'မ', by decide, by decide, by decide⟩⟩

/-- C5 as stated fails: a text of length 1 whose only character is in the
Myanmar block is detected as `my`, not `en`. -/
theorem detectLanguage_short_myanmar_counterexample :
    jsLength "မ" ≤ 5 ∧
    detectLanguage asciiLower (francConst codeEng) "မ" = "my" ∧
    detectLanguage asciiLower (francConst codeEng) "မ" ≠ "en" := by
  decide

/-- C5, amended: a text with no code point of the Myanmar block and with
`text.length ≤ 5` (UTF-16 code units) is detected as `en`, whatever the
classifier would answer. -/
theorem detectLanguage_short_rule (toLowerCase : String → String)
    (franc : String → Nat → SourceCode) (text : String)
    (hm : ∀ c ∈ text.data, ¬ (0x1000 ≤ c.toNat ∧ c.toNat ≤ 0x109F))
    (hlen : jsLength text ≤ 5) :
    detectLanguage toLowerCase franc text = "en" := by
  apply detectLanguage_of_short _ _ _ _ hlen
  rw [Bool.eq_false_iff]
  intro hh
  simp only [hasMyanmar, List.any_eq_true] at hh
  obtain ⟨c, hc, hcm⟩ := hh
  simp only [isMyanmar, Bool.and_eq_true, decide_eq_true_eq] at hcm
  exact hm c hc hcm

/-- C5, worked example: a four-character Thai greeting, with a classifier that
answers `jpn`. -/
theorem detectLanguage_short_rule_witness :
    (∀ c ∈ "หวัด".data, ¬ (0x1000 ≤ c.toNat ∧ c.toNat ≤ 0x109F)) ∧
    jsLength "หวัด" ≤ 5 ∧
    detectLanguage asciiLower (francConst codeJpn) "หวัด" = "en" :=
  ⟨by decide, by decide,
    detectLanguage_short_rule asciiLower (francConst codeJpn) "หวัด" (by decide) (by decide)⟩

/-- C9: `detectLanguage` always returns one of `en`, `my`, `ja`, `th`; and on a
text with no Myanmar code point and length above 5 it returns the `langMap`
image of the classifier code when the code is `eng`, `mya`, `jpn` or `tha`, and
`en` for every other code (the inconclusive `und` included). -/
theorem detectLanguage_closed_set (toLowerCase : String → String)
    (franc : String → Nat → SourceCode) (text : String) :
    (detectLanguage toLowerCase franc text = "en" ∨
      detectLanguage toLowerCase franc text = "my" ∨
      detectLanguage toLowerCase franc text = "ja" ∨
      detectLanguage toLowerCase franc text = "th") ∧
    ((∀ c ∈ text.data, ¬ (0x1000 ≤ c.toNat ∧ c.toNat ≤ 0x109F)) → 5 < jsLength text →
      ((franc text 3).code = "eng" → detectLanguage toLowerCase franc text = "en") ∧
      ((franc text 3).code = "mya" → detectLanguage toLowerCase franc text = "my") ∧
      ((franc text 3).code = "jpn" → detectLanguage toLowerCase franc text = "ja") ∧
      ((franc text 3).code = "tha" → detectLanguage toLowerCase franc text = "th") ∧
      ((franc text 3).code ≠ "eng" → (franc text 3).code ≠ "mya" →
        (franc text 3).code ≠ "jpn" → (franc text 3).code ≠ "tha" →
        detectLanguage toLowerCase franc text = "en")) := by
  constructor
  · cases hm : hasMyanmar text
    · rcases Nat.lt_or_ge 5 (jsLength text) with hlen | hlen
      · rw [detectLanguage_of_long _ _ _ hm hlen]
        exact langMap_getD_mem _
      · exact Or.inl (detectLanguage_of_short _ _ _ hm hlen)
    · exact Or.inr (Or.inl (detectLanguage_of_myanmar _ _ _ hm))
  · intro hno hlen
    have hm : hasMyanmar text = false := by
      rw [Bool.eq_false_iff]
      intro hh
      simp only [hasMyanmar, List.any_eq_true] at hh
      obtain ⟨c, hc, hcm⟩ := hh
      simp only [isMyanmar, Bool.and_eq_true, decide_eq_true_eq] at hcm
      exact hno c hc hcm
    rw [detectLanguage_of_long _ _ _ hm hlen]
    refine ⟨?_, ?_, ?_, ?_, ?_⟩
    · intro h; simp [langMap, h]
    · intro h; simp [langMap, h]
    · intro h; simp [langMap, h]
    · intro h; simp [langMap, h]
    · intro h1 h2 h3 h4; simp [langMap, h1, h2, h3, h4]

/-- C9, worked example: a Japanese sentence classified `jpn` is detected as
`ja`, and a text on which the classifier is inconclusive as `en`. -/
theorem detectLanguage_closed_set_witness :
    detectLanguage asciiLower (francConst codeJpn) "営業時間を教えてください" = "ja" ∧
    detectLanguage asciiLower (francConst codeUnd) "qwrtp zxcvb" = "en" :=
  ⟨((detectLanguage_closed_set asciiLower (francConst codeJpn) "営業時間を教えてください").2
      (by decide) (by decide)).2.2.1 (by decide),
    ((detectLanguage_closed_set asciiLower (francConst codeUnd) "qwrtp zxcvb").2
      (by decide) (by decide)).2.2.2.2 (by decide) (by decide) (by decide) (by decide)⟩

/-! ## Cosine similarity: theorems -/

/-- The accumulators of the loop on two vectors of the same length: the dot
product and the two sums of squares. -/
theorem cosineLoop_of_length_eq {α : Type} [LinearOrderedField α] (a : List α) :
    ∀ (b : List α) (d p q : α), a.length = b.length →
      cosineLoop a b (d, p, q) =
        some (d + (List.zipWith (fun x y => x * y) a b).sum,
              p + (a.map (fun x => x * x)).sum,
              q + (b.map (fun y => y * y)).sum) := by
  induction a with
  | nil =>
    intro b d p q h
    cases b with
    | nil => simp [cosineLoop]
    | cons y b => simp at h
  | cons x a ih =>
    intro b d p q h
    cases b with
    | nil => simp at h
    | cons y b =>
      simp only [List.length_cons, add_left_inj] at h
      simp only [cosineLoop, ih b _ _ _ h, List.zipWith_cons_cons, List.sum_cons,
        List.map_cons, add_assoc]

/-- The loop leaves `NaN` in the accumulators when `b` is shorter than `a`. -/
theorem cosineLoop_of_length_lt {α : Type} [LinearOrderedField α] (a : List α) :
    ∀ (b : List α) (acc : α × α × α), b.length < a.length → cosineLoop a b acc = none := by
  induction a with
  | nil => intro b acc h; simp at h
  | cons x a ih =>
    intro b acc h
    cases b with
    | nil => simp [cosineLoop]
    | cons y b =>
      obtain ⟨d, p, q⟩ := acc
      simp only [List.length_cons, add_lt_add_iff_right] at h
      simp only [cosineLoop, ih b _ h]

theorem zipWith_mul_sum_comm {α : Type} [LinearOrderedField α] (a : List α) :
    ∀ b : List α, (List.zipWith (fun x y => x * y) a b).sum =
      (List.zipWith (fun x y => x * y) b a).sum := by
  induction a with
  | nil => intro b; cases b <;> simp
  | cons x a ih =>
    intro b
    cases b with
    | nil => simp
    | cons y b => simp [ih b, mul_comm]

theorem zipWith_mul_self_sum {α : Type} [LinearOrderedField α] (a : List α) :
    (List.zipWith (fun x y => x * y) a a).sum = (a.map (fun x => x * x)).sum := by
  induction a with
  | nil => simp
  | cons x a ih => simp [ih]

theorem sum_squares_nonneg {α : Type} [LinearOrderedField α] (a : List α) :
    0 ≤ (a.map (fun x => x * x)).sum := by
  induction a with
  | nil => simp
  | cons x a ih =>
    simp only [List.map_cons, List.sum_cons]
    exact add_nonneg (mul_self_nonneg x) ih

theorem sum_squares_pos {α : Type} [LinearOrderedField α] (a : List α)
    (h : ∃ x ∈ a, x ≠ 0) : 0 < (a.map (fun x => x * x)).sum := by
  induction a with
  | nil => simp at h
  | cons y a ih =>
    simp only [List.map_cons, List.sum_cons]
    obtain ⟨x, hx, hx0⟩ := h
    rcases List.mem_cons.mp hx with rfl | hmem
    · exact add_pos_of_pos_of_nonneg (mul_self_pos.mpr hx0) (sum_squares_nonneg a)
    · exact add_pos_of_nonneg_of_pos (mul_self_nonneg y) (ih ⟨x, hmem, hx0⟩)

/-- C8: over the reals, `cosineSimilarity` is symmetric on vectors of the same
length, and the similarity of a non-zero vector with itself is 1. -/
theorem cosineSimilarity_symm_and_self (a b : List ℝ) :
    (a.length = b.length →
      cosineSimilarity Real.sqrt a b = cosineSimilarity Real.sqrt b a) ∧
    ((∃ x ∈ a, x ≠ 0) → cosineSimilarity Real.sqrt a a = JSNum.num 1) := by
  constructor
  · intro h
    simp only [cosineSimilarity, cosineLoop_of_length_eq a b 0 0 0 h,
      cosineLoop_of_length_eq b a 0 0 0 h.symm, zipWith_mul_sum_comm a b]
    rw [mul_comm]
  · intro h
    have hpos := sum_squares_pos a h
    simp only [cosineSimilarity, cosineLoop_of_length_eq a a 0 0 0 rfl, zero_add,
      zipWith_mul_self_sum, JSNum.div, Real.mul_self_sqrt hpos.le]
    rw [if_pos hpos.ne.symm, div_self hpos.ne.symm]

/-- C8, worked example: the vectors `(3, 4)` and `(1, 0)`. -/
theorem cosineSimilarity_symm_and_self_witness :
    cosineSimilarity Real.sqrt [3, 4] [1, 0] = cosineSimilarity Real.sqrt [1, 0] [3, 4] ∧
    cosineSimilarity Real.sqrt [3, 4] [3, 4] = JSNum.num (1 : ℝ) :=
  ⟨(cosineSimilarity_symm_and_self [3, 4] [1, 0]).1 rfl,
    (cosineSimilarity_symm_and_self [3, 4] [1, 0]).2 ⟨3, by simp, by norm_num⟩⟩

/-! ## The similarity scan: theorems -/

theorem JSNum.gt_num {α : Type} [LinearOrderedField α] (x y : α) :
    (JSNum.num x).gt (JSNum.num y) = decide (y < x) := rfl

theorem scanFrom_nil {α : Type} [LinearOrderedField α] (sqrt : α → α) (qVec : List α)
    (i : Nat) (st : JSNum α × Int) : scanFrom sqrt qVec [] i st = st := rfl

theorem scanFrom_cons {α : Type} [LinearOrderedField α] (sqrt : α → α) (qVec vec : List α)
    (rest : List (List α)) (i : Nat) (maxSim : JSNum α) (bestIdx : Int) :
    scanFrom sqrt qVec (vec :: rest) i (maxSim, bestIdx) =
      scanFrom sqrt qVec rest (i + 1)
        (if (cosineSimilarity sqrt qVec vec).gt maxSim = true
          then (cosineSimilarity sqrt qVec vec, (i : Int)) else (maxSim, bestIdx)) := rfl

theorem JSNum.gt_irrefl {α : Type} [LinearOrderedField α] (a : JSNum α) :
    a.gt a = false := by
  cases a <;> simp [JSNum.gt]

theorem JSNum.gt_trans {α : Type} [LinearOrderedField α] {a b c : JSNum α}
    (hab : a.gt b = true) (hbc : b.gt c = true) : a.gt c = true := by
  cases a <;> cases b <;> cases c <;> simp_all [JSNum.gt]
  exact lt_trans hbc hab

theorem JSNum.gt_asymm {α : Type} [LinearOrderedField α] {a b : JSNum α}
    (hab : a.gt b = true) : b.gt a = false := by
  rw [Bool.eq_false_iff]
  intro hba
  have h := JSNum.gt_trans hab hba
  rw [JSNum.gt_irrefl] at h
  exact Bool.false_ne_true h

theorem JSNum.ne_of_gt {α : Type} [LinearOrderedField α] {a b : JSNum α}
    (hab : a.gt b = true) : b ≠ a := by
  intro h
  rw [h, JSNum.gt_irrefl] at hab
  exact Bool.false_ne_true hab

/-- The invariant of the scan started at index `i` in state `(m, k)`: either
no remaining vector beats `m` and the state is unchanged, or the result is the
first remaining position whose similarity nothing beats. -/
theorem scanFrom_spec {α : Type} [LinearOrderedField α] (sqrt : α → α) (qVec : List α)
    (l : List (List α)) :
    ∀ (i : Nat) (m : JSNum α) (k : Int),
      (scanFrom sqrt qVec l i (m, k) = (m, k) ∧
        ∀ vec ∈ l, (cosineSimilarity sqrt qVec vec).gt m = false) ∨
      (∃ (j : Nat) (vec : List α), l.get? j = some vec ∧
        scanFrom sqrt qVec l i (m, k) = (cosineSimilarity sqrt qVec vec, ((i + j : Nat) : Int)) ∧
        (cosineSimilarity sqrt qVec vec).gt m = true ∧
        (∀ v ∈ l, (cosineSimilarity sqrt qVec v).gt (cosineSimilarity sqrt qVec vec) = false) ∧
        (∀ (j' : Nat) (v : List α), j' < j → l.get? j' = some v →
          cosineSimilarity sqrt qVec v ≠ cosineSimilarity sqrt qVec vec)) := by
  induction l with
  | nil =>
    intro i m k
    left
    simp [scanFrom]
  | cons vec rest ih =>
    intro i m k
    cases hs : (cosineSimilarity sqrt qVec vec).gt m
    · -- the head does not beat `m`
      have hstep : scanFrom sqrt qVec (vec :: rest) i (m, k) =
          scanFrom sqrt qVec rest (i + 1) (m, k) := by
        simp [scanFrom, hs]
      rcases ih (i + 1) m k with ⟨heq, hall⟩ | ⟨j, v, hj, heq, hgt, hall, hlow⟩
      · left
        refine ⟨by rw [hstep, heq], ?_⟩
        intro w hw
        rcases List.mem_cons.mp hw with rfl | hw
        · exact hs
        · exact hall w hw
      · right
        refine ⟨j + 1, v, by simpa using hj, ?_, hgt, ?_, ?_⟩
        · rw [hstep, heq]
          congr 2
          omega
        · intro w hw
          rcases List.mem_cons.mp hw with rfl | hw
          · rw [Bool.eq_false_iff]
            intro hc
            rw [JSNum.gt_trans hc hgt] at hs
            exact Bool.false_ne_true hs.symm
          · exact hall w hw
        · intro j' w hj' hw
          cases j' with
          | zero =>
            simp only [List.get?_cons_zero, Option.some.injEq] at hw
            subst hw
            intro hc
            rw [hc, hgt] at hs
            exact Bool.false_ne_true hs.symm
          | succ j'' =>
            exact hlow j'' w (by omega) (by simpa using hw)
    · -- the head beats `m`
      have hstep : scanFrom sqrt qVec (vec :: rest) i (m, k) =
          scanFrom sqrt qVec rest (i + 1) (cosineSimilarity sqrt qVec vec, (i : Int)) := by
        simp [scanFrom, hs]
      right
      rcases ih (i + 1) (cosineSimilarity sqrt qVec vec) (i : Int) with
        ⟨heq, hall⟩ | ⟨j, v, hj, heq, hgt, hall, hlow⟩
      · refine ⟨0, vec, by simp, ?_, hs, ?_, ?_⟩
        · rw [hstep, heq]
          simp
        · intro w hw
          rcases List.mem_cons.mp hw with rfl | hw
          · exact JSNum.gt_irrefl _
          · exact hall w hw
        · intro j' w hj'
          omega
      · refine ⟨j + 1, v, by simpa using hj, ?_, JSNum.gt_trans hgt hs, ?_, ?_⟩
        · rw [hstep, heq]
          congr 2
          omega
        · intro w hw
          rcases List.mem_cons.mp hw with rfl | hw
          · exact JSNum.gt_asymm hgt
          · exact hall w hw
        · intro j' w hj' hw
          cases j' with
          | zero =>
            simp only [List.get?_cons_zero, Option.some.injEq] at hw
            subst hw
            exact JSNum.ne_of_gt hgt
          | succ j'' =>
            exact hlow j'' w (by omega) (by simpa using hw)

theorem cosineSimilarity_exBucket :
    exBucket.map (cosineSimilarity Real.sqrt exQVec) =
      [JSNum.num (3 / 10 : ℝ), JSNum.num (9 / 10), JSNum.num (9 / 10)] := by
  simp only [exBucket, exQVec, List.map, cosineSimilarity, cosineLoop, JSNum.div]
  norm_num

/-- The scan on the example bucket: 0.9 beats 0.3, and of the two vectors tied
at 0.9 the one of lower index is kept. -/
theorem scan_exBucket :
    scan Real.sqrt exQVec exBucket = (JSNum.num (9 / 10 : ℝ), 1) := by
  have h := cosineSimilarity_exBucket
  simp only [exBucket, List.map, List.cons.injEq, and_true] at h
  obtain ⟨h0, h1, h2⟩ := h
  norm_num [scan, exBucket, scanFrom_cons, scanFrom_nil, h0, h1, h2, JSNum.gt_num]

/-- C2 as stated fails: for the query vector `(1)` and the bucket `[(-1)]` the
only similarity, hence the maximum, is -1 and index 0 attains it, but the scan
ends with `bestIdx = -1`. -/
theorem scan_lowest_index_counterexample :
    cosineSimilarity Real.sqrt [1] [-1] = JSNum.num (-1 : ℝ) ∧
    (scan Real.sqrt [1] [[(-1 : ℝ)]]).1 = JSNum.num (-1 : ℝ) ∧
    (scan Real.sqrt [1] [[(-1 : ℝ)]]).2 = -1 ∧
    (scan Real.sqrt [1] [[(-1 : ℝ)]]).2 ≠ 0 := by
  have h : cosineSimilarity Real.sqrt [1] [-1] = JSNum.num (-1 : ℝ) := by
    simp [cosineSimilarity, cosineLoop, JSNum.div]
  simp [scan, scanFrom, h, JSNum.gt]

theorem JSNum.ne_nan_of_gt {α : Type} [LinearOrderedField α] {a b : JSNum α}
    (hab : a.gt b = true) : a ≠ .nan ∧ b ≠ .nan := by
  cases a <;> cases b <;> simp_all [JSNum.gt]

theorem JSNum.gt_trichotomy {α : Type} [LinearOrderedField α] (a b : JSNum α)
    (ha : a ≠ .nan) (hb : b ≠ .nan) : a.gt b = true ∨ a = b ∨ b.gt a = true := by
  cases a <;> cases b <;> simp_all [JSNum.gt]
  rename_i x y
  rcases lt_trichotomy x y with h | h | h
  · exact Or.inr (Or.inr h)
  · exact Or.inr (Or.inl h)
  · exact Or.inl h

/-- C2, amended: if some vector of the bucket has a similarity greater than
-1, the scan ends with `maxSim` the greatest similarity of the bucket and
`bestIdx` the lowest index attaining it: `maxSim` is the similarity of the
vector at `bestIdx`, it is greater than -1 (so it is not `NaN`), no similarity
of the bucket is greater, every similarity of the bucket is `NaN`, equal to
`maxSim` or smaller than `maxSim`, and no vector of lower index has the
similarity `maxSim`.  If no similarity is greater than -1 (in particular for
an empty bucket) the scan ends with `maxSim = -1` and `bestIdx = -1`. -/
theorem scan_best_match {α : Type} [LinearOrderedField α] (sqrt : α → α) (qVec : List α)
    (embLang : List (List α)) :
    ((∃ vec ∈ embLang, (cosineSimilarity sqrt qVec vec).gt (.num (-1)) = true) →
      ∃ (j : Nat) (vec : List α), embLang.get? j = some vec ∧
        scan sqrt qVec embLang = (cosineSimilarity sqrt qVec vec, (j : Int)) ∧
        (cosineSimilarity sqrt qVec vec).gt (.num (-1)) = true ∧
        (∀ v ∈ embLang,
          (cosineSimilarity sqrt qVec v).gt (cosineSimilarity sqrt qVec vec) = false) ∧
        (∀ v ∈ embLang,
          cosineSimilarity sqrt qVec v = .nan ∨
          cosineSimilarity sqrt qVec v = cosineSimilarity sqrt qVec vec ∨
          (cosineSimilarity sqrt qVec vec).gt (cosineSimilarity sqrt qVec v) = true) ∧
        (∀ (j' : Nat) (v : List α), j' < j → embLang.get? j' = some v →
          cosineSimilarity sqrt qVec v ≠ cosineSimilarity sqrt qVec vec)) ∧
    ((∀ vec ∈ embLang, (cosineSimilarity sqrt qVec vec).gt (.num (-1)) = false) →
      scan sqrt qVec embLang = (.num (-1), -1)) := by
  unfold scan
  rcases scanFrom_spec sqrt qVec embLang 0 (.num (-1)) (-1) with
    ⟨heq, hall⟩ | ⟨j, vec, hj, heq, hgt, hall, hlow⟩
  · refine ⟨?_, fun _ => heq⟩
    rintro ⟨vec, hvec, hgt⟩
    rw [hall vec hvec] at hgt
    exact absurd hgt Bool.false_ne_true
  · refine ⟨fun _ => ⟨j, vec, hj, by simpa using heq, hgt, hall, ?_, hlow⟩, ?_⟩
    · intro v hv
      by_cases hnan : cosineSimilarity sqrt qVec v = .nan
      · exact Or.inl hnan
      · right
        rcases JSNum.gt_trichotomy (cosineSimilarity sqrt qVec v)
            (cosineSimilarity sqrt qVec vec) hnan (JSNum.ne_nan_of_gt hgt).1 with h | h | h
        · rw [hall v hv] at h
          exact absurd h Bool.false_ne_true
        · exact Or.inl h
        · exact Or.inr h
    · intro hnone
      rw [hnone vec (List.get?_mem hj)] at hgt
      exact absurd hgt Bool.false_ne_true

/-- C2, worked example: on the bucket with similarities 0.3, 0.9 and 0.9 the
scan selects a vector whose similarity is above -1, that nothing beats and that
no earlier vector ties. -/
theorem scan_best_match_witness :
    (∃ vec ∈ exBucket, (cosineSimilarity Real.sqrt exQVec vec).gt (.num (-1)) = true) ∧
    (∃ (j : Nat) (vec : List ℝ), exBucket.get? j = some vec ∧
        scan Real.sqrt exQVec exBucket = (cosineSimilarity Real.sqrt exQVec vec, (j : Int)) ∧
        (cosineSimilarity Real.sqrt exQVec vec).gt (.num (-1)) = true ∧
        (∀ v ∈ exBucket,
          (cosineSimilarity Real.sqrt exQVec v).gt (cosineSimilarity Real.sqrt exQVec vec)
            = false) ∧
        (∀ v ∈ exBucket,
          cosineSimilarity Real.sqrt exQVec v = .nan ∨
          cosineSimilarity Real.sqrt exQVec v = cosineSimilarity Real.sqrt exQVec vec ∨
          (cosineSimilarity Real.sqrt exQVec vec).gt (cosineSimilarity Real.sqrt exQVec v)
            = true) ∧
        (∀ (j' : Nat) (v : List ℝ), j' < j → exBucket.get? j' = some v →
          cosineSimilarity Real.sqrt exQVec v ≠ cosineSimilarity Real.sqrt exQVec vec)) :=
  have h : ∃ vec ∈ exBucket,
      (cosineSimilarity Real.sqrt exQVec vec).gt (.num (-1)) = true := by
    have h := cosineSimilarity_exBucket
    simp only [exBucket, List.map, List.cons.injEq, and_true] at h
    refine ⟨[3 / 10, 9 / 10, 3 / 10, 1 / 10], by simp [exBucket], ?_⟩
    rw [h.1]
    simp only [JSNum.gt, decide_eq_true_eq]
    norm_num
  ⟨h, (scan_best_match Real.sqrt exQVec exBucket).1 h⟩

/-- The scan on a bucket whose first similarity is `NaN` (a vector shorter
than the query) and whose second is 1: the `NaN` is skipped. -/
theorem scan_nan_example :
    cosineSimilarity Real.sqrt [1, 0] [1] = JSNum.nan ∧
    scan Real.sqrt [1, 0] [[1], [1, 0]] = (JSNum.num (1 : ℝ), 1) := by
  have h0 : cosineSimilarity Real.sqrt [1, 0] [1] = (JSNum.nan : JSNum ℝ) := by
    simp [cosineSimilarity, cosineLoop]
  have h1 : cosineSimilarity Real.sqrt [1, 0] [1, 0] = JSNum.num (1 : ℝ) := by
    simp [cosineSimilarity, cosineLoop, JSNum.div]
  refine ⟨h0, ?_⟩
  norm_num [scan, scanFrom_cons, scanFrom_nil, h0, h1, JSNum.gt_num, JSNum.gt]

/-! ## The handler: its paths -/

theorem isExact_iff {α : Type} (env : Env α) (lang userQuery : String) (f : FaqEntry) :
    isExact env lang userQuery f = true ↔
      (f.lang = lang ∧ env.toLowerCase f.question = env.toLowerCase userQuery) := by
  simp [isExact]

/-- The exact-match path. -/
theorem ask_of_exact {α : Type} [LinearOrderedField α] (env : Env α) (amb : Ambient α)
    (raw : String) (w : World α) (x : FaqEntry) (hq : jsTrim raw ≠ "")
    (hx : env.customerSupportData.find?
      (isExact env (detectedLang env (jsTrim raw)) (jsTrim raw)) = some x) :
    ask env amb (some raw) w =
      (.reply x.answer x.image (amb.random * 500 + 300),
       logConversation amb.day
         ⟨amb.timestamp, jsTrim raw, detectedLang env (jsTrim raw), some x.id, .num 1, x.answer⟩
         (consoleLog ("💬 User Query: " ++ jsTrim raw)
           (consoleLog ("🌏 Detected Language: " ++ detectedLang env (jsTrim raw)) w))) := by
  simp only [detectedLang] at hx
  simp [ask, hq, hx]

/-- The path on which the embedding collaborator throws. -/
theorem ask_of_extractor_failure {α : Type} [LinearOrderedField α] (env : Env α)
    (amb : Ambient α) (raw : String) (w : World α) (hq : jsTrim raw ≠ "")
    (hx : env.customerSupportData.find?
      (isExact env (detectedLang env (jsTrim raw)) (jsTrim raw)) = none)
    (hemb : env.featureExtractor (jsTrim raw) = none) :
    ask env amb (some raw) w =
      (.error 500 "Internal server error",
       consoleLog " /ask error:"
         (callExtractor env (jsTrim raw)
           (consoleLog ("💬 User Query: " ++ jsTrim raw)
             (consoleLog ("🌏 Detected Language: " ++ detectedLang env (jsTrim raw)) w))).2) := by
  simp only [detectedLang] at hx
  simp [ask, hq, hx, callExtractor, hemb]

/-- The similarity path when the best score passes the threshold and an entry
stands at the best index. -/
theorem ask_of_similarity_match {α : Type} [LinearOrderedField α] (env : Env α)
    (amb : Ambient α) (raw : String) (w : World α) (qVec : List α) (m : FaqEntry)
    (hq : jsTrim raw ≠ "")
    (hx : env.customerSupportData.find?
      (isExact env (detectedLang env (jsTrim raw)) (jsTrim raw)) = none)
    (hemb : env.featureExtractor (jsTrim raw) = some qVec)
    (hgt : (scan env.sqrt qVec (embLang env (detectedLang env (jsTrim raw)))).1.gt
      (.num (6 / 10)) = true)
    (hm : jsIndex (faqLang env (detectedLang env (jsTrim raw)))
      (scan env.sqrt qVec (embLang env (detectedLang env (jsTrim raw)))).2 = some m) :
    ask env amb (some raw) w =
      (.reply m.answer m.image (amb.random * 500 + 300),
       logConversation amb.day
         ⟨amb.timestamp, jsTrim raw, detectedLang env (jsTrim raw), some m.id,
           (scan env.sqrt qVec (embLang env (detectedLang env (jsTrim raw)))).1, m.answer⟩
         (callExtractor env (jsTrim raw)
           (consoleLog ("💬 User Query: " ++ jsTrim raw)
             (consoleLog ("🌏 Detected Language: " ++ detectedLang env (jsTrim raw)) w))).2) := by
  simp only [detectedLang] at hx hgt hm
  simp [ask, hq, hx, callExtractor, hemb, hgt, hm]

/-- The similarity path when the best score does not pass the threshold or no
entry stands at the best index. -/
theorem ask_of_no_match {α : Type} [LinearOrderedField α] (env : Env α)
    (amb : Ambient α) (raw : String) (w : World α) (qVec : List α)
    (hq : jsTrim raw ≠ "")
    (hx : env.customerSupportData.find?
      (isExact env (detectedLang env (jsTrim raw)) (jsTrim raw)) = none)
    (hemb : env.featureExtractor (jsTrim raw) = some qVec)
    (hno : (scan env.sqrt qVec (embLang env (detectedLang env (jsTrim raw)))).1.gt
        (.num (6 / 10)) = false ∨
      jsIndex (faqLang env (detectedLang env (jsTrim raw)))
        (scan env.sqrt qVec (embLang env (detectedLang env (jsTrim raw)))).2 = none) :
    ask env amb (some raw) w =
      (.reply (fallbackMessage (detectedLang env (jsTrim raw))) none (amb.random * 500 + 300),
       logConversation amb.day
         ⟨amb.timestamp, jsTrim raw, detectedLang env (jsTrim raw), none,
           (scan env.sqrt qVec (embLang env (detectedLang env (jsTrim raw)))).1,
           fallbackMessage (detectedLang env (jsTrim raw))⟩
         (callExtractor env (jsTrim raw)
           (consoleLog ("💬 User Query: " ++ jsTrim raw)
             (consoleLog ("🌏 Detected Language: " ++ detectedLang env (jsTrim raw)) w))).2) := by
  simp only [detectedLang] at hx hno
  rcases hno with hno | hno
  · simp [ask, hq, hx, callExtractor, hemb, hno, noMatch]
  · cases hgt : (scan env.sqrt qVec (embLang env
        (detectLanguage env.toLowerCase env.franc (jsTrim raw)))).1.gt (.num (6 / 10))
    · simp [ask, hq, hx, callExtractor, hemb, hgt, noMatch]
    · simp [ask, hq, hx, callExtractor, hemb, hgt, hno, noMatch]

/-! ## The handler: theorems -/

/-- C1: when some corpus entry has the detected language of the trimmed,
non-empty query and the same question after lower-casing both, the handler
replies with the answer and image of the first such entry in corpus order, logs
one entry with that entry's id and `similarityScore` 1, and hands nothing to
the embedding collaborator. -/
theorem ask_exact_match_wins {α : Type} [LinearOrderedField α] (env : Env α)
    (amb : Ambient α) (raw : String) (w : World α) (hq : jsTrim raw ≠ "")
    (hex : ∃ f ∈ env.customerSupportData, f.lang = detectedLang env (jsTrim raw) ∧
      env.toLowerCase f.question = env.toLowerCase (jsTrim raw)) :
    ∃ (pre : List FaqEntry) (x : FaqEntry) (post : List FaqEntry),
      env.customerSupportData = pre ++ x :: post ∧
      (∀ f ∈ pre, ¬ (f.lang = detectedLang env (jsTrim raw) ∧
        env.toLowerCase f.question = env.toLowerCase (jsTrim raw))) ∧
      (x.lang = detectedLang env (jsTrim raw) ∧
        env.toLowerCase x.question = env.toLowerCase (jsTrim raw)) ∧
      (ask env amb (some raw) w).1 = .reply x.answer x.image (amb.random * 500 + 300) ∧
      (ask env amb (some raw) w).2.logFiles = w.logFiles ++
        [(amb.day, ⟨amb.timestamp, jsTrim raw, detectedLang env (jsTrim raw), some x.id,
          .num 1, x.answer⟩)] ∧
      (ask env amb (some raw) w).2.embedCalls = w.embedCalls := by
  obtain ⟨f, hf, hfe⟩ := hex
  cases hfind : env.customerSupportData.find?
      (isExact env (detectedLang env (jsTrim raw)) (jsTrim raw)) with
  | none =>
    rw [List.find?_eq_none] at hfind
    exact absurd ((isExact_iff env _ _ f).mpr hfe) (hfind f hf)
  | some x =>
    have hpath := ask_of_exact env amb raw w x hq hfind
    rw [List.find?_eq_some] at hfind
    obtain ⟨hx, pre, post, hsplit, hpre⟩ := hfind
    refine ⟨pre, x, post, hsplit, ?_, (isExact_iff env _ _ x).mp hx, ?_, ?_, ?_⟩
    · intro g hg hge
      have := hpre g hg
      rw [(isExact_iff env _ _ g).mpr hge] at this
      exact absurd this (by decide)
    · rw [hpath]
    · rw [hpath]; rfl
    · rw [hpath]; rfl

/-- The request `hi` on the example corpus, evaluated. -/
theorem ask_hi_example :
    ask (exEnv Real.sqrt) exAmbient (some "hi") exWorld =
      (.reply "Hello! How can I help you?" none (1 / 2 * 500 + 300),
       ⟨[("2024-05-01", ⟨"2024-05-01T10:00:00+00:00", "hi", "en", some 1, .num 1,
            "Hello! How can I help you?"⟩)],
        [], ["🌏 Detected Language: en", "💬 User Query: hi"]⟩) := by
  have hq : jsTrim "hi" ≠ "" := by decide
  have hx : (exEnv Real.sqrt).customerSupportData.find?
      (isExact (exEnv Real.sqrt) (detectedLang (exEnv Real.sqrt) (jsTrim "hi")) (jsTrim "hi")) =
      some ⟨1, "en", "Hi", "Hello! How can I help you?", none⟩ := by
    decide
  rw [ask_of_exact _ _ _ _ _ hq hx]
  rfl

/-- C1, worked example: the entry with question `Hi` and the query `hi`. -/
theorem ask_exact_match_wins_witness :
    jsTrim "hi" ≠ "" ∧
    (∃ f ∈ (exEnv Real.sqrt).customerSupportData,
      f.lang = detectedLang (exEnv Real.sqrt) (jsTrim "hi") ∧
      (exEnv Real.sqrt).toLowerCase f.question =
        (exEnv Real.sqrt).toLowerCase (jsTrim "hi")) ∧
    (∃ (pre : List FaqEntry) (x : FaqEntry) (post : List FaqEntry),
      (exEnv Real.sqrt).customerSupportData = pre ++ x :: post ∧
      (∀ f ∈ pre, ¬ (f.lang = detectedLang (exEnv Real.sqrt) (jsTrim "hi") ∧
        (exEnv Real.sqrt).toLowerCase f.question =
          (exEnv Real.sqrt).toLowerCase (jsTrim "hi"))) ∧
      (x.lang = detectedLang (exEnv Real.sqrt) (jsTrim "hi") ∧
        (exEnv Real.sqrt).toLowerCase x.question =
          (exEnv Real.sqrt).toLowerCase (jsTrim "hi")) ∧
      (ask (exEnv Real.sqrt) exAmbient (some "hi") exWorld).1 =
        .reply x.answer x.image ((exAmbient : Ambient ℝ).random * 500 + 300) ∧
      (ask (exEnv Real.sqrt) exAmbient (some "hi") exWorld).2.logFiles =
        (exWorld : World ℝ).logFiles ++
        [((exAmbient : Ambient ℝ).day, ⟨(exAmbient : Ambient ℝ).timestamp, jsTrim "hi",
          detectedLang (exEnv Real.sqrt) (jsTrim "hi"), some x.id, .num 1, x.answer⟩)] ∧
      (ask (exEnv Real.sqrt) exAmbient (some "hi") exWorld).2.embedCalls =
        (exWorld : World ℝ).embedCalls) :=
  have hq : jsTrim "hi" ≠ "" := by decide
  have hex : ∃ f ∈ (exEnv Real.sqrt).customerSupportData,
      f.lang = detectedLang (exEnv Real.sqrt) (jsTrim "hi") ∧
      (exEnv Real.sqrt).toLowerCase f.question =
        (exEnv Real.sqrt).toLowerCase (jsTrim "hi") :=
    ⟨⟨1, "en", "Hi", "Hello! How can I help you?", none⟩, by simp [exEnv, exCorpus],
      by decide, by decide⟩
  ⟨hq, hex, ask_exact_match_wins (exEnv Real.sqrt) exAmbient "hi" exWorld hq hex⟩

/-- C10: when the query has no exact match and the embedding collaborator
fails on it, the handler answers status 500 with the internal-error body, has
called the collaborator exactly once, appends nothing to the conversation log,
and the response is not a reply (in particular not a no-match reply). -/
theorem ask_extractor_failure {α : Type} [LinearOrderedField α] (env : Env α)
    (amb : Ambient α) (raw : String) (w : World α) (hq : jsTrim raw ≠ "")
    (hno : ∀ f ∈ env.customerSupportData, ¬ (f.lang = detectedLang env (jsTrim raw) ∧
      env.toLowerCase f.question = env.toLowerCase (jsTrim raw)))
    (hemb : env.featureExtractor (jsTrim raw) = none) :
    (ask env amb (some raw) w).1 = .error 500 "Internal server error" ∧
    (ask env amb (some raw) w).2.embedCalls = w.embedCalls ++ [jsTrim raw] ∧
    (ask env amb (some raw) w).2.logFiles = w.logFiles ∧
    (∀ (reply : String) (image : Option String) (t : α),
      (ask env amb (some raw) w).1 ≠ .reply reply image t) := by
  have hfind : env.customerSupportData.find?
      (isExact env (detectedLang env (jsTrim raw)) (jsTrim raw)) = none := by
    rw [List.find?_eq_none]
    intro f hf hfe
    exact hno f hf ((isExact_iff env _ _ f).mp hfe)
  rw [ask_of_extractor_failure env amb raw w hq hfind hemb]
  refine ⟨rfl, rfl, rfl, ?_⟩
  intro reply image t h
  cases h

/-- C10, worked example: a query on which the example collaborator fails. -/
theorem ask_extractor_failure_witness :
    (ask (exEnv Real.sqrt) exAmbient (some "crash the model now") exWorld).1 =
      .error 500 "Internal server error" ∧
    (ask (exEnv Real.sqrt) exAmbient (some "crash the model now") exWorld).2.embedCalls =
      (exWorld : World ℝ).embedCalls ++ [jsTrim "crash the model now"] ∧
    (ask (exEnv Real.sqrt) exAmbient (some "crash the model now") exWorld).2.logFiles =
      (exWorld : World ℝ).logFiles ∧
    (∀ (reply : String) (image : Option String) (t : ℝ),
      (ask (exEnv Real.sqrt) exAmbient (some "crash the model now") exWorld).1 ≠
        .reply reply image t) :=
  ask_extractor_failure (exEnv Real.sqrt) exAmbient "crash the model now" exWorld
    (by decide) (by decide) (by decide)

theorem find?_isExact_eq_none {α : Type} (env : Env α) (userQuery : String)
    (hno : ∀ f ∈ env.customerSupportData, ¬ (f.lang = detectedLang env userQuery ∧
      env.toLowerCase f.question = env.toLowerCase userQuery)) :
    env.customerSupportData.find? (isExact env (detectedLang env userQuery) userQuery) = none := by
  rw [List.find?_eq_none]
  intro f hf hfe
  exact hno f hf ((isExact_iff env _ _ f).mp hfe)

theorem JSNum.gt_self_num {α : Type} [LinearOrderedField α] (x : α) :
    (JSNum.num x).gt (JSNum.num x) = false := JSNum.gt_irrefl _

theorem jsIndex_mem {β : Type} (xs : List β) (i : Int) (x : β) (h : jsIndex xs i = some x) :
    x ∈ xs := by
  unfold jsIndex at h
  split at h
  · exact absurd h (by simp)
  · exact List.get?_mem h

/-- C3: for a query with no exact match, the handler returns a similarity match
(the answer and image of an entry of the detected language, and a log entry
with that entry's id) if and only if the embedding of the query is computed,
the best similarity is strictly greater than 0.6 and an entry stands at the
best index; the entry returned is then the one at the best index.  When the
best similarity is not greater than 0.6, in particular when it is exactly 0.6,
or no entry stands at the best index, the handler returns the fallback reply
and logs `faqId` null. -/
theorem ask_threshold_exclusive {α : Type} [LinearOrderedField α] (env : Env α)
    (amb : Ambient α) (raw : String) (w : World α)
    (hq : jsTrim raw ≠ "")
    (hno : ∀ f ∈ env.customerSupportData, ¬ (f.lang = detectedLang env (jsTrim raw) ∧
      env.toLowerCase f.question = env.toLowerCase (jsTrim raw))) :
    ((∃ (m : FaqEntry) (e : LogEntry α),
        m ∈ faqLang env (detectedLang env (jsTrim raw)) ∧
        (ask env amb (some raw) w).1 = .reply m.answer m.image (amb.random * 500 + 300) ∧
        (ask env amb (some raw) w).2.logFiles = w.logFiles ++ [(amb.day, e)] ∧
        e.faqId = some m.id) ↔
      (∃ qVec : List α, env.featureExtractor (jsTrim raw) = some qVec ∧
        (scan env.sqrt qVec (embLang env (detectedLang env (jsTrim raw)))).1.gt
          (.num (6 / 10)) = true ∧
        (jsIndex (faqLang env (detectedLang env (jsTrim raw)))
          (scan env.sqrt qVec (embLang env (detectedLang env (jsTrim raw)))).2).isSome = true)) ∧
    (∀ (qVec : List α) (m : FaqEntry), env.featureExtractor (jsTrim raw) = some qVec →
      (scan env.sqrt qVec (embLang env (detectedLang env (jsTrim raw)))).1.gt
        (.num (6 / 10)) = true →
      jsIndex (faqLang env (detectedLang env (jsTrim raw)))
        (scan env.sqrt qVec (embLang env (detectedLang env (jsTrim raw)))).2 = some m →
      (ask env amb (some raw) w).1 = .reply m.answer m.image (amb.random * 500 + 300) ∧
      (ask env amb (some raw) w).2.logFiles = w.logFiles ++
        [(amb.day, ⟨amb.timestamp, jsTrim raw, detectedLang env (jsTrim raw), some m.id,
          (scan env.sqrt qVec (embLang env (detectedLang env (jsTrim raw)))).1, m.answer⟩)]) ∧
    (∀ qVec : List α, env.featureExtractor (jsTrim raw) = some qVec →
      ((scan env.sqrt qVec (embLang env (detectedLang env (jsTrim raw)))).1.gt
          (.num (6 / 10)) = false ∨
        jsIndex (faqLang env (detectedLang env (jsTrim raw)))
          (scan env.sqrt qVec (embLang env (detectedLang env (jsTrim raw)))).2 = none) →
      (ask env amb (some raw) w).1 =
        .reply (fallbackMessage (detectedLang env (jsTrim raw))) none (amb.random * 500 + 300) ∧
      (ask env amb (some raw) w).2.logFiles = w.logFiles ++
        [(amb.day, ⟨amb.timestamp, jsTrim raw, detectedLang env (jsTrim raw), none,
          (scan env.sqrt qVec (embLang env (detectedLang env (jsTrim raw)))).1,
          fallbackMessage (detectedLang env (jsTrim raw))⟩)]) ∧
    (∀ qVec : List α, env.featureExtractor (jsTrim raw) = some qVec →
      (scan env.sqrt qVec (embLang env (detectedLang env (jsTrim raw)))).1 = .num (6 / 10) →
      (ask env amb (some raw) w).1 =
        .reply (fallbackMessage (detectedLang env (jsTrim raw))) none (amb.random * 500 + 300) ∧
      (ask env amb (some raw) w).2.logFiles = w.logFiles ++
        [(amb.day, ⟨amb.timestamp, jsTrim raw, detectedLang env (jsTrim raw), none,
          .num (6 / 10), fallbackMessage (detectedLang env (jsTrim raw))⟩)]) := by
  have hfind := find?_isExact_eq_none env (jsTrim raw) hno
  have hfall : ∀ qVec : List α, env.featureExtractor (jsTrim raw) = some qVec →
      ((scan env.sqrt qVec (embLang env (detectedLang env (jsTrim raw)))).1.gt
          (.num (6 / 10)) = false ∨
        jsIndex (faqLang env (detectedLang env (jsTrim raw)))
          (scan env.sqrt qVec (embLang env (detectedLang env (jsTrim raw)))).2 = none) →
      (ask env amb (some raw) w).1 =
        .reply (fallbackMessage (detectedLang env (jsTrim raw))) none (amb.random * 500 + 300) ∧
      (ask env amb (some raw) w).2.logFiles = w.logFiles ++
        [(amb.day, ⟨amb.timestamp, jsTrim raw, detectedLang env (jsTrim raw), none,
          (scan env.sqrt qVec (embLang env (detectedLang env (jsTrim raw)))).1,
          fallbackMessage (detectedLang env (jsTrim raw))⟩)] := by
    intro qVec hemb h
    rw [ask_of_no_match env amb raw w qVec hq hfind hemb h]
    exact ⟨rfl, rfl⟩
  have hhit : ∀ (qVec : List α) (m : FaqEntry), env.featureExtractor (jsTrim raw) = some qVec →
      (scan env.sqrt qVec (embLang env (detectedLang env (jsTrim raw)))).1.gt
        (.num (6 / 10)) = true →
      jsIndex (faqLang env (detectedLang env (jsTrim raw)))
        (scan env.sqrt qVec (embLang env (detectedLang env (jsTrim raw)))).2 = some m →
      (ask env amb (some raw) w).1 = .reply m.answer m.image (amb.random * 500 + 300) ∧
      (ask env amb (some raw) w).2.logFiles = w.logFiles ++
        [(amb.day, ⟨amb.timestamp, jsTrim raw, detectedLang env (jsTrim raw), some m.id,
          (scan env.sqrt qVec (embLang env (detectedLang env (jsTrim raw)))).1, m.answer⟩)] := by
    intro qVec m hemb hgt hm
    rw [ask_of_similarity_match env amb raw w qVec m hq hfind hemb hgt hm]
    exact ⟨rfl, rfl⟩
  refine ⟨⟨?_, ?_⟩, hhit, hfall, ?_⟩
  · rintro ⟨m, e, -, -, hlog, hid⟩
    cases hemb : env.featureExtractor (jsTrim raw) with
    | none =>
      rw [ask_of_extractor_failure env amb raw w hq hfind hemb] at hlog
      have hlen := congrArg List.length hlog
      simp [consoleLog, callExtractor] at hlen
    | some qVec =>
      refine ⟨qVec, rfl, ?_⟩
      by_contra hcon
      have hno2 : (scan env.sqrt qVec (embLang env (detectedLang env (jsTrim raw)))).1.gt
            (.num (6 / 10)) = false ∨
          jsIndex (faqLang env (detectedLang env (jsTrim raw)))
            (scan env.sqrt qVec (embLang env (detectedLang env (jsTrim raw)))).2 = none := by
        by_contra hc
        rw [not_or] at hc
        apply hcon
        exact ⟨by simpa using hc.1, Option.isSome_iff_ne_none.mpr hc.2⟩
      have h2 := (hfall qVec hemb hno2).2
      rw [h2] at hlog
      simp only [List.append_cancel_left_eq, List.cons.injEq, Prod.mk.injEq, true_and,
        and_true] at hlog
      rw [← hlog] at hid
      simp at hid
  · rintro ⟨qVec, hemb, hgt, hsome⟩
    obtain ⟨m, hm⟩ := Option.isSome_iff_exists.mp hsome
    exact ⟨m, _, jsIndex_mem _ _ _ hm, (hhit qVec m hemb hgt hm).1,
      (hhit qVec m hemb hgt hm).2, rfl⟩
  · intro qVec hemb heq
    have h := hfall qVec hemb (Or.inl (by rw [heq]; exact JSNum.gt_self_num _))
    rw [heq] at h
    exact h

theorem exEnv_embLang_en {α : Type} [LinearOrderedField α] (sqrt : α → α) :
    embLang (exEnv sqrt) "en" = [[0, 1], [3 / 5, 4 / 5]] := rfl

theorem exEnv_faqLang_en {α : Type} [LinearOrderedField α] (sqrt : α → α) :
    faqLang (exEnv sqrt) "en" =
      [⟨1, "en", "Hi", "Hello! How can I help you?", none⟩,
       ⟨2, "en", "What are your opening hours?", "We are open from 9 to 5.",
         some "hours.png"⟩] := rfl

/-- The scan for the example query `when are you open`: the best similarity is
exactly 0.6, at index 1. -/
theorem scan_boundary_example :
    scan Real.sqrt [1, 0] [[0, 1], [3 / 5, 4 / 5]] = (JSNum.num (6 / 10 : ℝ), 1) := by
  have h0 : cosineSimilarity Real.sqrt [1, 0] [0, 1] = JSNum.num (0 : ℝ) := by
    simp [cosineSimilarity, cosineLoop, JSNum.div]
  have h1 : cosineSimilarity Real.sqrt [1, 0] [3 / 5, 4 / 5] = JSNum.num (6 / 10 : ℝ) := by
    simp only [cosineSimilarity, cosineLoop, JSNum.div]
    norm_num
  norm_num [scan, scanFrom_cons, scanFrom_nil, h0, h1, JSNum.gt_num]

/-- C3, worked example: a query whose best similarity is exactly 0.6 gets the
fallback reply, logged with `faqId` null. -/
theorem ask_threshold_exclusive_witness :
    (scan (exEnv Real.sqrt).sqrt [1, 0]
      (embLang (exEnv Real.sqrt)
        (detectedLang (exEnv Real.sqrt) (jsTrim "when are you open")))).1 = .num (6 / 10) ∧
    (ask (exEnv Real.sqrt) exAmbient (some "when are you open") exWorld).1 =
      .reply (fallbackMessage
          (detectedLang (exEnv Real.sqrt) (jsTrim "when are you open"))) none
        ((exAmbient : Ambient ℝ).random * 500 + 300) ∧
    (ask (exEnv Real.sqrt) exAmbient (some "when are you open") exWorld).2.logFiles =
      (exWorld : World ℝ).logFiles ++
        [((exAmbient : Ambient ℝ).day, ⟨(exAmbient : Ambient ℝ).timestamp,
          jsTrim "when are you open",
          detectedLang (exEnv Real.sqrt) (jsTrim "when are you open"), none,
          .num (6 / 10),
          fallbackMessage (detectedLang (exEnv Real.sqrt) (jsTrim "when are you open"))⟩)] :=
  have hlang : detectedLang (exEnv Real.sqrt) (jsTrim "when are you open") = "en" := by
    decide
  have hscan : (scan (exEnv Real.sqrt).sqrt [1, 0]
      (embLang (exEnv Real.sqrt)
        (detectedLang (exEnv Real.sqrt) (jsTrim "when are you open")))).1 = .num (6 / 10) := by
    rw [hlang, exEnv_embLang_en]
    exact congrArg Prod.fst scan_boundary_example
  ⟨hscan,
    (ask_threshold_exclusive (exEnv Real.sqrt) exAmbient "when are you open" exWorld
      (by decide) (by decide)).2.2.2 [1, 0] rfl hscan⟩

/-! ## The index built at start-up: keys -/

theorem lookupEmbeddings_eq_none_iff {α : Type} (index : List (String × List (List α)))
    (lang : String) :
    lookupEmbeddings index lang = none ↔ ∀ p ∈ index, p.1 ≠ lang := by
  simp [lookupEmbeddings, List.find?_eq_none]

theorem pushTo_keys {α : Type} (lang : String) (vec : List α) :
    ∀ (index : List (String × List (List α))) (p : String × List (List α)),
      p ∈ pushTo lang vec index → ∃ p' ∈ index, p'.1 = p.1 := by
  intro index
  induction index with
  | nil => intro p hp; simp [pushTo] at hp
  | cons hd rest ih =>
    intro p hp
    obtain ⟨k, vs⟩ := hd
    simp only [pushTo] at hp
    split at hp
    · rcases List.mem_cons.mp hp with rfl | hp
      · exact ⟨(k, vs), List.mem_cons_self _ _, rfl⟩
      · exact ⟨p, List.mem_cons_of_mem _ hp, rfl⟩
    · rcases List.mem_cons.mp hp with rfl | hp
      · exact ⟨(k, vs), List.mem_cons_self _ _, rfl⟩
      · obtain ⟨p', hp', hk⟩ := ih p hp
        exact ⟨p', List.mem_cons_of_mem _ hp', hk⟩

theorem pushEmbedding_absent {α : Type} (index index' : List (String × List (List α)))
    (lang key : String) (vec : List α) (h : pushEmbedding index lang vec = some index')
    (hkey : lang ≠ key) (habs : ∀ p ∈ index, p.1 ≠ key) : ∀ p ∈ index', p.1 ≠ key := by
  unfold pushEmbedding at h
  split at h
  · simp only [Option.some.injEq] at h
    subst h
    intro p hp
    obtain ⟨p', hp', hk⟩ := pushTo_keys lang vec index p hp
    rw [← hk]
    exact habs p' hp'
  · split at h
    · exact absurd h (by simp)
    · simp only [Option.some.injEq] at h
      subst h
      intro p hp
      rcases List.mem_append.mp hp with hp | hp
      · exact habs p hp
      · simp only [List.mem_singleton] at hp
        subst hp
        exact hkey

/-- A language that no corpus entry carries has no bucket in the index that
the start-up loop builds. -/
theorem initializeLoop_absent {α : Type} (featureExtractor : String → Option (List α))
    (key : String) :
    ∀ (corpus : List FaqEntry) (index index' : List (String × List (List α))),
      initializeLoop featureExtractor corpus index = some index' →
      (∀ f ∈ corpus, f.lang ≠ key) → (∀ p ∈ index, p.1 ≠ key) →
      ∀ p ∈ index', p.1 ≠ key := by
  intro corpus
  induction corpus with
  | nil =>
    intro index index' h _ habs
    simp only [initializeLoop, Option.some.injEq] at h
    subst h
    exact habs
  | cons item rest ih =>
    intro index index' h hcorpus habs
    simp only [initializeLoop] at h
    split at h
    · exact absurd h (by simp)
    · split at h
      · exact absurd h (by simp)
      · rename_i emb _ next hnext
        exact ih next index' h (fun f hf => hcorpus f (List.mem_cons_of_mem _ hf))
          (pushEmbedding_absent index next item.lang key _ hnext
            (hcorpus item (List.mem_cons_self _ _)) habs)

theorem embLang_eq_nil_of_absent {α : Type} (env : Env α)
    (featureExtractor : String → Option (List α)) (lang : String)
    (hinit : initializeAI featureExtractor env.customerSupportData = some env.questionEmbeddings)
    (hnone : ∀ f ∈ env.customerSupportData, f.lang ≠ lang) :
    embLang env lang = [] := by
  have h := initializeLoop_absent featureExtractor lang env.customerSupportData []
    env.questionEmbeddings hinit hnone (by simp)
  simp [embLang, (lookupEmbeddings_eq_none_iff env.questionEmbeddings lang).mpr h]

theorem exEnv_initialized {α : Type} [LinearOrderedField α] (sqrt : α → α) :
    initializeAI exExtractor (exEnv sqrt).customerSupportData =
      some (exEnv sqrt).questionEmbeddings := rfl

/-- C6: when no corpus entry has the detected language of the query (so that
the index built by `initializeAI` has no vector for it) and the embedding of
the query is computed, the handler replies with the fallback message and logs
one entry with `similarityScore` -1 and `faqId` null. -/
theorem ask_empty_bucket {α : Type} [LinearOrderedField α] (env : Env α)
    (amb : Ambient α) (raw : String) (w : World α) (qVec : List α)
    (bootExtractor : String → Option (List α))
    (hq : jsTrim raw ≠ "")
    (hinit : initializeAI bootExtractor env.customerSupportData = some env.questionEmbeddings)
    (hnone : ∀ f ∈ env.customerSupportData, f.lang ≠ detectedLang env (jsTrim raw))
    (hemb : env.featureExtractor (jsTrim raw) = some qVec) :
    embLang env (detectedLang env (jsTrim raw)) = [] ∧
    (ask env amb (some raw) w).1 =
      .reply (fallbackMessage (detectedLang env (jsTrim raw))) none (amb.random * 500 + 300) ∧
    (ask env amb (some raw) w).2.logFiles = w.logFiles ++
      [(amb.day, ⟨amb.timestamp, jsTrim raw, detectedLang env (jsTrim raw), none,
        .num (-1), fallbackMessage (detectedLang env (jsTrim raw))⟩)] := by
  have hfind := find?_isExact_eq_none env (jsTrim raw)
    (fun f hf hfe => hnone f hf hfe.1)
  have hemp := embLang_eq_nil_of_absent env bootExtractor _ hinit hnone
  have hscan : scan env.sqrt qVec (embLang env (detectedLang env (jsTrim raw))) =
      (.num (-1), -1) := by
    rw [hemp]
    rfl
  have hgt : (scan env.sqrt qVec (embLang env (detectedLang env (jsTrim raw)))).1.gt
      (.num (6 / 10)) = false := by
    rw [hscan]
    simp only [JSNum.gt_num, decide_eq_false_iff_not, not_lt]
    norm_num
  rw [ask_of_no_match env amb raw w qVec hq hfind hemb (Or.inl hgt), hscan]
  exact ⟨hemp, rfl, rfl⟩

/-- C6, worked example: a Myanmar query on the example corpus, which has no
Myanmar entry. -/
theorem ask_empty_bucket_witness :
    embLang (exEnv Real.sqrt) (detectedLang (exEnv Real.sqrt) (jsTrim "မင်္ဂလာပါ")) = [] ∧
    (ask (exEnv Real.sqrt) exAmbient (some "မင်္ဂလာပါ") exWorld).1 =
      .reply (fallbackMessage (detectedLang (exEnv Real.sqrt) (jsTrim "မင်္ဂလာပါ"))) none
        ((exAmbient : Ambient ℝ).random * 500 + 300) ∧
    (ask (exEnv Real.sqrt) exAmbient (some "မင်္ဂလာပါ") exWorld).2.logFiles =
      (exWorld : World ℝ).logFiles ++
        [((exAmbient : Ambient ℝ).day, ⟨(exAmbient : Ambient ℝ).timestamp,
          jsTrim "မင်္ဂလာပါ", detectedLang (exEnv Real.sqrt) (jsTrim "မင်္ဂလာပါ"), none,
          .num (-1), fallbackMessage (detectedLang (exEnv Real.sqrt) (jsTrim "မင်္ဂလာပါ"))⟩)] :=
  ask_empty_bucket (exEnv Real.sqrt) exAmbient "မင်္ဂလာပါ" exWorld [0, 1] exExtractor
    (by decide) (exEnv_initialized Real.sqrt) (by decide) rfl

/-- The score that the scan returns is the initial -1 or the similarity of a
vector of the bucket. -/
theorem scan_value {α : Type} [LinearOrderedField α] (sqrt : α → α) (qVec : List α)
    (bucket : List (List α)) :
    (scan sqrt qVec bucket).1 = .num (-1) ∨
    ∃ vec ∈ bucket, (scan sqrt qVec bucket).1 = cosineSimilarity sqrt qVec vec := by
  unfold scan
  rcases scanFrom_spec sqrt qVec bucket 0 (.num (-1)) (-1) with
    ⟨heq, -⟩ | ⟨j, vec, hj, heq, -, -, -⟩
  · left; rw [heq]
  · right; exact ⟨vec, List.get?_mem hj, by rw [heq]⟩

/-- C7: a request that ends in a reply (a match or a no-match) appends exactly
one entry to the conversation log; its `similarityScore` is 1 on the exact
path and the score of the scan otherwise (the similarity of a bucket vector, or
-1, and -1 when the bucket is empty); its `faqId` is the id of the returned
entry on a match and null on a no-match, so it is null exactly on a
no-match. -/
theorem ask_logs_exactly_once {α : Type} [LinearOrderedField α] (env : Env α)
    (amb : Ambient α) (question : Option String) (w : World α)
    (reply : String) (image : Option String) (t : α)
    (hresp : (ask env amb question w).1 = .reply reply image t) :
    ∃ (raw : String) (e : LogEntry α),
      question = some raw ∧ jsTrim raw ≠ "" ∧
      (ask env amb question w).2.logFiles = w.logFiles ++ [(amb.day, e)] ∧
      e.answer = reply ∧
      ((∃ x : FaqEntry,
          env.customerSupportData.find?
            (isExact env (detectedLang env (jsTrim raw)) (jsTrim raw)) = some x ∧
          e.similarityScore = .num 1 ∧ e.faqId = some x.id ∧
          reply = x.answer ∧ image = x.image) ∨
       (env.customerSupportData.find?
            (isExact env (detectedLang env (jsTrim raw)) (jsTrim raw)) = none ∧
        ∃ qVec : List α, env.featureExtractor (jsTrim raw) = some qVec ∧
          e.similarityScore =
            (scan env.sqrt qVec (embLang env (detectedLang env (jsTrim raw)))).1 ∧
          (e.similarityScore = .num (-1) ∨
            ∃ vec ∈ embLang env (detectedLang env (jsTrim raw)),
              e.similarityScore = cosineSimilarity env.sqrt qVec vec) ∧
          (embLang env (detectedLang env (jsTrim raw)) = [] →
            e.similarityScore = .num (-1)) ∧
          ((∃ m : FaqEntry,
              (scan env.sqrt qVec (embLang env (detectedLang env (jsTrim raw)))).1.gt
                (.num (6 / 10)) = true ∧
              jsIndex (faqLang env (detectedLang env (jsTrim raw)))
                (scan env.sqrt qVec (embLang env (detectedLang env (jsTrim raw)))).2 = some m ∧
              e.faqId = some m.id ∧ reply = m.answer ∧ image = m.image) ∨
           (((scan env.sqrt qVec (embLang env (detectedLang env (jsTrim raw)))).1.gt
                (.num (6 / 10)) = false ∨
              jsIndex (faqLang env (detectedLang env (jsTrim raw)))
                (scan env.sqrt qVec (embLang env (detectedLang env (jsTrim raw)))).2 = none) ∧
            e.faqId = none ∧ reply = fallbackMessage (detectedLang env (jsTrim raw)) ∧
            image = none)))) := by
  cases question with
  | none => simp [ask] at hresp
  | some raw =>
    by_cases hq : jsTrim raw = ""
    · simp [ask, hq] at hresp
    · cases hfind : env.customerSupportData.find?
          (isExact env (detectedLang env (jsTrim raw)) (jsTrim raw)) with
      | some x =>
        rw [ask_of_exact env amb raw w x hq hfind] at hresp ⊢
        simp only [Response.reply.injEq] at hresp
        obtain ⟨h1, h2, -⟩ := hresp
        exact ⟨raw, _, rfl, hq, rfl, h1, Or.inl ⟨x, hfind, rfl, rfl, h1.symm, h2.symm⟩⟩
      | none =>
        cases hemb : env.featureExtractor (jsTrim raw) with
        | none =>
          rw [ask_of_extractor_failure env amb raw w hq hfind hemb] at hresp
          cases hresp
        | some qVec =>
          have hval := scan_value env.sqrt qVec (embLang env (detectedLang env (jsTrim raw)))
          have hnil : embLang env (detectedLang env (jsTrim raw)) = [] →
              (scan env.sqrt qVec (embLang env (detectedLang env (jsTrim raw)))).1 =
                .num (-1) := by
            intro h; rw [h]; rfl
          by_cases hmatch :
            (scan env.sqrt qVec (embLang env (detectedLang env (jsTrim raw)))).1.gt
                (.num (6 / 10)) = true ∧
              ∃ m, jsIndex (faqLang env (detectedLang env (jsTrim raw)))
                (scan env.sqrt qVec (embLang env (detectedLang env (jsTrim raw)))).2 = some m
          · obtain ⟨hgt, m, hm⟩ := hmatch
            rw [ask_of_similarity_match env amb raw w qVec m hq hfind hemb hgt hm] at hresp ⊢
            simp only [Response.reply.injEq] at hresp
            obtain ⟨h1, h2, -⟩ := hresp
            exact ⟨raw, _, rfl, hq, rfl, h1, Or.inr ⟨hfind, qVec, hemb, rfl, hval, hnil,
              Or.inl ⟨m, hgt, hm, rfl, h1.symm, h2.symm⟩⟩⟩
          · have hno : (scan env.sqrt qVec (embLang env (detectedLang env (jsTrim raw)))).1.gt
                  (.num (6 / 10)) = false ∨
                jsIndex (faqLang env (detectedLang env (jsTrim raw)))
                  (scan env.sqrt qVec (embLang env (detectedLang env (jsTrim raw)))).2 =
                    none := by
              by_contra hcon
              rw [not_or] at hcon
              apply hmatch
              refine ⟨by simpa using hcon.1, ?_⟩
              exact Option.ne_none_iff_exists'.mp hcon.2
            rw [ask_of_no_match env amb raw w qVec hq hfind hemb hno] at hresp ⊢
            simp only [Response.reply.injEq] at hresp
            obtain ⟨h1, h2, -⟩ := hresp
            exact ⟨raw, _, rfl, hq, rfl, h1, Or.inr ⟨hfind, qVec, hemb, rfl, hval, hnil,
              Or.inr ⟨hno, rfl, h1.symm, h2.symm⟩⟩⟩

/-- The scan for the example query `opening hours please`: the best
similarity is 1, at index 1. -/
theorem scan_match_example :
    scan Real.sqrt [3 / 5, 4 / 5] [[0, 1], [3 / 5, 4 / 5]] = (JSNum.num (1 : ℝ), 1) := by
  have h0 : cosineSimilarity Real.sqrt [3 / 5, 4 / 5] [0, 1] = JSNum.num (4 / 5 : ℝ) := by
    simp only [cosineSimilarity, cosineLoop, JSNum.div]
    norm_num
  have h1 : cosineSimilarity Real.sqrt [3 / 5, 4 / 5] [3 / 5, 4 / 5] = JSNum.num (1 : ℝ) := by
    simp only [cosineSimilarity, cosineLoop, JSNum.div]
    norm_num
  norm_num [scan, scanFrom_cons, scanFrom_nil, h0, h1, JSNum.gt_num]

/-- The request `opening hours please` on the example corpus, evaluated: a
similarity match with the second entry. -/
theorem ask_similarity_example :
    ask (exEnv Real.sqrt) exAmbient (some "opening hours please") exWorld =
      (.reply "We are open from 9 to 5." (some "hours.png") (1 / 2 * 500 + 300),
       ⟨[("2024-05-01", ⟨"2024-05-01T10:00:00+00:00", "opening hours please", "en", some 2,
            .num 1, "We are open from 9 to 5."⟩)],
        ["opening hours please"],
        ["🌏 Detected Language: en", "💬 User Query: opening hours please"]⟩) := by
  have hlang : detectedLang (exEnv Real.sqrt) (jsTrim "opening hours please") = "en" := by
    decide
  have hscan : scan (exEnv Real.sqrt).sqrt [3 / 5, 4 / 5]
      (embLang (exEnv Real.sqrt)
        (detectedLang (exEnv Real.sqrt) (jsTrim "opening hours please"))) =
      (JSNum.num (1 : ℝ), 1) := by
    rw [hlang, exEnv_embLang_en]
    exact scan_match_example
  rw [ask_of_similarity_match (exEnv Real.sqrt) exAmbient "opening hours please" exWorld
    [3 / 5, 4 / 5] ⟨2, "en", "What are your opening hours?", "We are open from 9 to 5.",
      some "hours.png"⟩ (by decide) (by decide) rfl
    (by rw [hscan]; norm_num [JSNum.gt_num])
    (by rw [hscan, hlang, exEnv_faqLang_en]; rfl), hscan]
  rfl

/-- C7, worked example: the similarity match of `opening hours please` appends
one log entry. -/
theorem ask_logs_exactly_once_witness :
    (ask (exEnv Real.sqrt) exAmbient (some "opening hours please") exWorld).1 =
      .reply "We are open from 9 to 5." (some "hours.png") (1 / 2 * 500 + 300) ∧
    ∃ (raw : String) (e : LogEntry ℝ),
      some "opening hours please" = some raw ∧ jsTrim raw ≠ "" ∧
      (ask (exEnv Real.sqrt) exAmbient (some "opening hours please") exWorld).2.logFiles =
        (exWorld : World ℝ).logFiles ++ [((exAmbient : Ambient ℝ).day, e)] ∧
      e.answer = "We are open from 9 to 5." :=
  have hresp : (ask (exEnv Real.sqrt) exAmbient (some "opening hours please") exWorld).1 =
      .reply "We are open from 9 to 5." (some "hours.png") (1 / 2 * 500 + 300) := by
    rw [ask_similarity_example]
  ⟨hresp,
    match ask_logs_exactly_once (exEnv Real.sqrt) exAmbient (some "opening hours please")
      exWorld _ _ _ hresp with
    | ⟨raw, e, h1, h2, h3, h4, _⟩ => ⟨raw, e, h1, h2, h3, h4⟩⟩

/-! ## Validation and the fallback message: theorems -/

theorem dropWhile_eq_nil_of_all {β : Type} (p : β → Bool) (l : List β)
    (h : ∀ x ∈ l, p x = true) : l.dropWhile p = [] := by
  induction l with
  | nil => rfl
  | cons x l ih =>
    rw [List.dropWhile_cons, if_pos (h x (List.mem_cons_self _ _))]
    exact ih (fun y hy => h y (List.mem_cons_of_mem _ hy))

theorem jsTrim_of_white (raw : String) (h : ∀ c ∈ raw.data, isJsWhiteSpace c = true) :
    jsTrim raw = "" := by
  unfold jsTrim
  rw [dropWhile_eq_nil_of_all isJsWhiteSpace raw.data h]
  rfl

/-- C14: a request whose question is missing, empty or made only of the white
space that `trim` removes is answered with status 400 and `Missing question`,
and leaves the world as it was: no console line of the language detection, no
call of the embedding collaborator and no line appended to the log. -/
theorem ask_missing_question {α : Type} [LinearOrderedField α] (env : Env α)
    (amb : Ambient α) (question : Option String) (w : World α)
    (h : question = none ∨
      ∃ raw : String, question = some raw ∧ ∀ c ∈ raw.data, isJsWhiteSpace c = true) :
    (ask env amb question w).1 = .error 400 "Missing question" ∧
    (ask env amb question w).2 = w ∧
    (ask env amb question w).2.console = w.console ∧
    (ask env amb question w).2.embedCalls = w.embedCalls ∧
    (ask env amb question w).2.logFiles = w.logFiles := by
  have hask : ask env amb question w = (.error 400 "Missing question", w) := by
    rcases h with h | ⟨raw, h, hwhite⟩
    · subst h
      rfl
    · subst h
      simp [ask, jsTrim_of_white raw hwhite]
  rw [hask]
  exact ⟨rfl, rfl, rfl, rfl, rfl⟩

/-- C14, worked example: a question made of a space, a tab, a line feed and a
no-break space. -/
theorem ask_missing_question_witness :
    (ask (exEnv Real.sqrt) exAmbient (some " \t\n\u00a0") exWorld).1 =
      .error 400 "Missing question" ∧
    (ask (exEnv Real.sqrt) exAmbient (some " \t\n\u00a0") exWorld).2 = exWorld ∧
    (ask (exEnv Real.sqrt) exAmbient (some " \t\n\u00a0") exWorld).2.console =
      (exWorld : World ℝ).console ∧
    (ask (exEnv Real.sqrt) exAmbient (some " \t\n\u00a0") exWorld).2.embedCalls =
      (exWorld : World ℝ).embedCalls ∧
    (ask (exEnv Real.sqrt) exAmbient (some " \t\n\u00a0") exWorld).2.logFiles =
      (exWorld : World ℝ).logFiles :=
  ask_missing_question (exEnv Real.sqrt) exAmbient (some " \t\n\u00a0") exWorld
    (Or.inr ⟨" \t\n\u00a0", rfl, by decide⟩)

/-- C11: a no-match (the query has no exact match, its embedding is computed,
and the best similarity is not above 0.6 or no entry stands at the best
index) is answered with the message `noMsg[detectedLang] || noMsg.en` and no
image: the canned string of the detected language when it is `en`, `my`, `ja`
or `th`; and for every other code, not the name of an inherited member, the
expression is the English string. -/
theorem ask_no_match_message {α : Type} [LinearOrderedField α] (env : Env α)
    (amb : Ambient α) (raw : String) (w : World α) (qVec : List α)
    (hq : jsTrim raw ≠ "")
    (hno : ∀ f ∈ env.customerSupportData, ¬ (f.lang = detectedLang env (jsTrim raw) ∧
      env.toLowerCase f.question = env.toLowerCase (jsTrim raw)))
    (hemb : env.featureExtractor (jsTrim raw) = some qVec)
    (hmiss : (scan env.sqrt qVec (embLang env (detectedLang env (jsTrim raw)))).1.gt
        (.num (6 / 10)) = false ∨
      jsIndex (faqLang env (detectedLang env (jsTrim raw)))
        (scan env.sqrt qVec (embLang env (detectedLang env (jsTrim raw)))).2 = none) :
    (ask env amb (some raw) w).1 =
      .reply (fallbackMessage (detectedLang env (jsTrim raw))) none (amb.random * 500 + 300) ∧
    (detectedLang env (jsTrim raw) = "en" →
      (ask env amb (some raw) w).1 =
        .reply "I'm sorry, I couldn't find an answer." none (amb.random * 500 + 300)) ∧
    (detectedLang env (jsTrim raw) = "my" →
      (ask env amb (some raw) w).1 =
        .reply "စိတ်မရှိပါနဲ့ နီးစပ်သောအဖြေမတွေ့ပါ" none (amb.random * 500 + 300)) ∧
    (detectedLang env (jsTrim raw) = "ja" →
      (ask env amb (some raw) w).1 =
        .reply "申し訳ありません、回答が見つかりません。" none (amb.random * 500 + 300)) ∧
    (detectedLang env (jsTrim raw) = "th" →
      (ask env amb (some raw) w).1 =
        .reply "ขออภัย ไม่พบคำตอบ" none (amb.random * 500 + 300)) ∧
    (∀ code : String, code ≠ "en" → code ≠ "my" → code ≠ "ja" → code ≠ "th" →
      inheritedKeys.contains code = false →
      fallbackMessage code = "I'm sorry, I couldn't find an answer.") := by
  have hfind := find?_isExact_eq_none env (jsTrim raw) hno
  have hask := ask_of_no_match env amb raw w qVec hq hfind hemb hmiss
  rw [hask]
  refine ⟨rfl, ?_, ?_, ?_, ?_, ?_⟩
  · intro h; rw [h]; rfl
  · intro h; rw [h]; rfl
  · intro h; rw [h]; rfl
  · intro h; rw [h]; rfl
  · intro code h1 h2 h3 h4 _
    simp [fallbackMessage, noMsg, h1, h2, h3, h4, noMsgEn]

/-- C11, worked example: the Myanmar query on the example corpus gets the
Myanmar message, and the code `fr` falls back to the English one. -/
theorem ask_no_match_message_witness :
    (ask (exEnv Real.sqrt) exAmbient (some "မင်္ဂလာပါ") exWorld).1 =
      .reply "စိတ်မရှိပါနဲ့ နီးစပ်သောအဖြေမတွေ့ပါ" none
        ((exAmbient : Ambient ℝ).random * 500 + 300) ∧
    fallbackMessage "fr" = "I'm sorry, I couldn't find an answer." :=
  have h := ask_no_match_message (exEnv Real.sqrt) exAmbient "မင်္ဂလာပါ" exWorld [0, 1]
    (by decide) (by decide) rfl
    (Or.inr (by
      have hlang : detectedLang (exEnv Real.sqrt) (jsTrim "မင်္ဂလာပါ") = "my" := by decide
      rw [hlang]
      rfl))
  ⟨h.2.2.1 (by decide), h.2.2.2.2.2 "fr" (by decide) (by decide) (by decide) (by decide)
    (by decide)⟩

/-! ## The handler: the five outcomes -/

/-- Every request takes one of five paths: rejected, exact match, collaborator
failure, similarity match, no match.  The conditions that select the path
mention neither the clock, nor the random draw, nor the world. -/
theorem ask_cases {α : Type} [LinearOrderedField α] (env : Env α) (question : Option String) :
    (∀ (amb : Ambient α) (w : World α),
      ask env amb question w = (.error 400 "Missing question", w)) ∨
    (∃ raw : String, question = some raw ∧ jsTrim raw ≠ "" ∧
      ((∃ x : FaqEntry,
          env.customerSupportData.find?
            (isExact env (detectedLang env (jsTrim raw)) (jsTrim raw)) = some x ∧
          ∀ (amb : Ambient α) (w : World α),
            (ask env amb question w).1 = .reply x.answer x.image (amb.random * 500 + 300) ∧
            (ask env amb question w).2.logFiles = w.logFiles ++
              [(amb.day, ⟨amb.timestamp, jsTrim raw, detectedLang env (jsTrim raw), some x.id,
                .num 1, x.answer⟩)]) ∨
       (env.customerSupportData.find?
            (isExact env (detectedLang env (jsTrim raw)) (jsTrim raw)) = none ∧
          env.featureExtractor (jsTrim raw) = none ∧
          ∀ (amb : Ambient α) (w : World α),
            (ask env amb question w).1 = .error 500 "Internal server error" ∧
            (ask env amb question w).2.logFiles = w.logFiles) ∨
       (∃ (qVec : List α) (m : FaqEntry),
          env.customerSupportData.find?
            (isExact env (detectedLang env (jsTrim raw)) (jsTrim raw)) = none ∧
          env.featureExtractor (jsTrim raw) = some qVec ∧
          (scan env.sqrt qVec (embLang env (detectedLang env (jsTrim raw)))).1.gt
            (.num (6 / 10)) = true ∧
          jsIndex (faqLang env (detectedLang env (jsTrim raw)))
            (scan env.sqrt qVec (embLang env (detectedLang env (jsTrim raw)))).2 = some m ∧
          ∀ (amb : Ambient α) (w : World α),
            (ask env amb question w).1 = .reply m.answer m.image (amb.random * 500 + 300) ∧
            (ask env amb question w).2.logFiles = w.logFiles ++
              [(amb.day, ⟨amb.timestamp, jsTrim raw, detectedLang env (jsTrim raw), some m.id,
                (scan env.sqrt qVec (embLang env (detectedLang env (jsTrim raw)))).1,
                m.answer⟩)]) ∨
       (∃ qVec : List α,
          env.customerSupportData.find?
            (isExact env (detectedLang env (jsTrim raw)) (jsTrim raw)) = none ∧
          env.featureExtractor (jsTrim raw) = some qVec ∧
          ((scan env.sqrt qVec (embLang env (detectedLang env (jsTrim raw)))).1.gt
              (.num (6 / 10)) = false ∨
            jsIndex (faqLang env (detectedLang env (jsTrim raw)))
              (scan env.sqrt qVec (embLang env (detectedLang env (jsTrim raw)))).2 = none) ∧
          ∀ (amb : Ambient α) (w : World α),
            (ask env amb question w).1 =
              .reply (fallbackMessage (detectedLang env (jsTrim raw))) none
                (amb.random * 500 + 300) ∧
            (ask env amb question w).2.logFiles = w.logFiles ++
              [(amb.day, ⟨amb.timestamp, jsTrim raw, detectedLang env (jsTrim raw), none,
                (scan env.sqrt qVec (embLang env (detectedLang env (jsTrim raw)))).1,
                fallbackMessage (detectedLang env (jsTrim raw))⟩)]))) := by
  cases question with
  | none => left; intro amb w; rfl
  | some raw =>
    by_cases hq : jsTrim raw = ""
    · left; intro amb w; simp [ask, hq]
    · right
      refine ⟨raw, rfl, hq, ?_⟩
      cases hfind : env.customerSupportData.find?
          (isExact env (detectedLang env (jsTrim raw)) (jsTrim raw)) with
      | some x =>
        left
        refine ⟨x, rfl, ?_⟩
        intro amb w
        rw [ask_of_exact env amb raw w x hq hfind]
        exact ⟨rfl, rfl⟩
      | none =>
        right
        cases hemb : env.featureExtractor (jsTrim raw) with
        | none =>
          left
          refine ⟨rfl, rfl, ?_⟩
          intro amb w
          rw [ask_of_extractor_failure env amb raw w hq hfind hemb]
          exact ⟨rfl, rfl⟩
        | some qVec =>
          right
          by_cases hmatch :
            (scan env.sqrt qVec (embLang env (detectedLang env (jsTrim raw)))).1.gt
                (.num (6 / 10)) = true ∧
              ∃ m, jsIndex (faqLang env (detectedLang env (jsTrim raw)))
                (scan env.sqrt qVec (embLang env (detectedLang env (jsTrim raw)))).2 = some m
          · obtain ⟨hgt, m, hm⟩ := hmatch
            left
            refine ⟨qVec, m, rfl, rfl, hgt, hm, ?_⟩
            intro amb w
            rw [ask_of_similarity_match env amb raw w qVec m hq hfind hemb hgt hm]
            exact ⟨rfl, rfl⟩
          · have hmiss :
                (scan env.sqrt qVec (embLang env (detectedLang env (jsTrim raw)))).1.gt
                  (.num (6 / 10)) = false ∨
                jsIndex (faqLang env (detectedLang env (jsTrim raw)))
                  (scan env.sqrt qVec (embLang env (detectedLang env (jsTrim raw)))).2 =
                    none := by
              by_contra hcon
              rw [not_or] at hcon
              apply hmatch
              exact ⟨by simpa using hcon.1, Option.ne_none_iff_exists'.mp hcon.2⟩
            right
            refine ⟨qVec, rfl, rfl, hmiss, ?_⟩
            intro amb w
            rw [ask_of_no_match env amb raw w qVec hq hfind hemb hmiss]
            exact ⟨rfl, rfl⟩

theorem hasMyanmar_eq_false_of (text : String)
    (hm : ∀ c ∈ text.data, ¬ (0x1000 ≤ c.toNat ∧ c.toNat ≤ 0x109F)) :
    hasMyanmar text = false := by
  rw [Bool.eq_false_iff]
  intro hh
  simp only [hasMyanmar, List.any_eq_true] at hh
  obtain ⟨c, hc, hcm⟩ := hh
  simp only [isMyanmar, Bool.and_eq_true, decide_eq_true_eq] at hcm
  exact hm c hc hcm

theorem mem_faqLang {α : Type} (env : Env α) (lang : String) (m : FaqEntry)
    (h : m ∈ faqLang env lang) : m ∈ env.customerSupportData ∧ m.lang = lang := by
  simpa [faqLang] using h

/-- C13: two runs of the handler on the same request, with the same corpus,
index, classifier and embedding collaborator, but with any two clock reads,
random draws and earlier worlds, end the same way: either both answer the same
error and append nothing to the log, or both answer the same reply text and
image and append a log entry with the same query, language, `faqId`, score and
answer.  The runs differ only in `thinking_time`, in the timestamp and in the
day file, which are those of each run. -/
theorem ask_deterministic {α : Type} [LinearOrderedField α] (env : Env α)
    (amb₁ amb₂ : Ambient α) (question : Option String) (w₁ w₂ : World α) :
    (∃ (status : Nat) (msg : String),
      (ask env amb₁ question w₁).1 = .error status msg ∧
      (ask env amb₂ question w₂).1 = .error status msg ∧
      (ask env amb₁ question w₁).2.logFiles = w₁.logFiles ∧
      (ask env amb₂ question w₂).2.logFiles = w₂.logFiles) ∨
    (∃ (reply : String) (image : Option String) (userQuery lang : String)
        (faqId : Option Nat) (score : JSNum α) (answer : String),
      (ask env amb₁ question w₁).1 = .reply reply image (amb₁.random * 500 + 300) ∧
      (ask env amb₂ question w₂).1 = .reply reply image (amb₂.random * 500 + 300) ∧
      (ask env amb₁ question w₁).2.logFiles = w₁.logFiles ++
        [(amb₁.day, ⟨amb₁.timestamp, userQuery, lang, faqId, score, answer⟩)] ∧
      (ask env amb₂ question w₂).2.logFiles = w₂.logFiles ++
        [(amb₂.day, ⟨amb₂.timestamp, userQuery, lang, faqId, score, answer⟩)]) := by
  rcases ask_cases env question with h | ⟨raw, -, -, h | h | h | h⟩
  · left
    refine ⟨400, "Missing question", ?_, ?_, ?_, ?_⟩
    · rw [h amb₁ w₁]
    · rw [h amb₂ w₂]
    · rw [h amb₁ w₁]
    · rw [h amb₂ w₂]
  · obtain ⟨x, -, h⟩ := h
    right
    exact ⟨_, _, _, _, _, _, _, (h amb₁ w₁).1, (h amb₂ w₂).1, (h amb₁ w₁).2, (h amb₂ w₂).2⟩
  · obtain ⟨-, -, h⟩ := h
    left
    exact ⟨_, _, (h amb₁ w₁).1, (h amb₂ w₂).1, (h amb₁ w₁).2, (h amb₂ w₂).2⟩
  · obtain ⟨qVec, m, -, -, -, -, h⟩ := h
    right
    exact ⟨_, _, _, _, _, _, _, (h amb₁ w₁).1, (h amb₂ w₂).1, (h amb₁ w₁).2, (h amb₂ w₂).2⟩
  · obtain ⟨qVec, -, -, -, h⟩ := h
    right
    exact ⟨_, _, _, _, _, _, _, (h amb₁ w₁).1, (h amb₂ w₂).1, (h amb₁ w₁).2, (h amb₂ w₂).2⟩

/-- C16: the entry that the exact-match `find` selects and the entry at any
index of `faqLang` have the detected language of the query; and whenever the
handler replies and logs a non-null `faqId`, the corpus holds an entry of the
detected language with that id, whose answer and image are the reply.  So for
a query with `length ≤ 5` and no Myanmar code point that entry has language
`en`. -/
theorem ask_returns_detected_language {α : Type} [LinearOrderedField α] (env : Env α)
    (amb : Ambient α) (question : Option String) (w : World α) :
    (∀ (userQuery : String) (x : FaqEntry),
      env.customerSupportData.find?
        (isExact env (detectedLang env userQuery) userQuery) = some x →
      x.lang = detectedLang env userQuery) ∧
    (∀ (userQuery : String) (i : Int) (m : FaqEntry),
      jsIndex (faqLang env (detectedLang env userQuery)) i = some m →
      m.lang = detectedLang env userQuery) ∧
    (∀ (reply : String) (image : Option String) (t : α) (e : LogEntry α),
      (ask env amb question w).1 = .reply reply image t →
      (ask env amb question w).2.logFiles = w.logFiles ++ [(amb.day, e)] →
      e.faqId ≠ none →
      ∃ (raw : String) (m : FaqEntry), question = some raw ∧
        m ∈ env.customerSupportData ∧ m.lang = detectedLang env (jsTrim raw) ∧
        e.faqId = some m.id ∧ reply = m.answer ∧ image = m.image ∧
        (jsLength (jsTrim raw) ≤ 5 →
          (∀ c ∈ (jsTrim raw).data, ¬ (0x1000 ≤ c.toNat ∧ c.toNat ≤ 0x109F)) →
          m.lang = "en")) := by
  refine ⟨?_, ?_, ?_⟩
  · intro userQuery x hx
    rw [List.find?_eq_some] at hx
    exact ((isExact_iff env _ _ x).mp hx.1).1
  · intro userQuery i m hm
    exact (mem_faqLang env _ m (jsIndex_mem _ _ _ hm)).2
  · intro reply image t e hresp hlog hid
    have hshort : ∀ (raw : String) (m : FaqEntry), m.lang = detectedLang env (jsTrim raw) →
        jsLength (jsTrim raw) ≤ 5 →
        (∀ c ∈ (jsTrim raw).data, ¬ (0x1000 ≤ c.toNat ∧ c.toNat ≤ 0x109F)) →
        m.lang = "en" := by
      intro raw m hm hlen hmy
      rw [hm]
      exact detectLanguage_of_short _ _ _ (hasMyanmar_eq_false_of _ hmy) hlen
    rcases ask_cases env question with h | ⟨raw, hraw, -, h | h | h | h⟩
    · rw [h amb w] at hresp
      cases hresp
    · obtain ⟨x, hx, h⟩ := h
      obtain ⟨h1, h2⟩ := h amb w
      rw [h1] at hresp
      rw [h2] at hlog
      simp only [Response.reply.injEq] at hresp
      simp only [List.append_cancel_left_eq, List.cons.injEq, Prod.mk.injEq, true_and,
        and_true] at hlog
      have hx' := hx
      rw [List.find?_eq_some] at hx'
      have hlang := ((isExact_iff env _ _ x).mp hx'.1).1
      exact ⟨raw, x, hraw, List.mem_of_find?_eq_some hx, hlang, by rw [← hlog],
        hresp.1.symm, hresp.2.1.symm, hshort raw x hlang⟩
    · obtain ⟨-, -, h⟩ := h
      rw [(h amb w).1] at hresp
      cases hresp
    · obtain ⟨qVec, m, -, -, -, hm, h⟩ := h
      obtain ⟨h1, h2⟩ := h amb w
      rw [h1] at hresp
      rw [h2] at hlog
      simp only [Response.reply.injEq] at hresp
      simp only [List.append_cancel_left_eq, List.cons.injEq, Prod.mk.injEq, true_and,
        and_true] at hlog
      obtain ⟨hmem, hlang⟩ := mem_faqLang env _ m (jsIndex_mem _ _ _ hm)
      exact ⟨raw, m, hraw, hmem, hlang, by rw [← hlog],
        hresp.1.symm, hresp.2.1.symm, hshort raw m hlang⟩
    · obtain ⟨qVec, -, -, -, h⟩ := h
      rw [(h amb w).2] at hlog
      simp only [List.append_cancel_left_eq, List.cons.injEq, Prod.mk.injEq, true_and,
        and_true] at hlog
      rw [← hlog] at hid
      exact absurd rfl hid

/-- C16, worked example: the query `hi` returns an entry of language `en`. -/
theorem ask_returns_detected_language_witness :
    ∃ (raw : String) (m : FaqEntry), some "hi" = some raw ∧
      m ∈ (exEnv Real.sqrt).customerSupportData ∧
      m.lang = detectedLang (exEnv Real.sqrt) (jsTrim raw) ∧
      (some 1 : Option Nat) = some m.id ∧ "Hello! How can I help you?" = m.answer ∧
      (none : Option String) = m.image ∧
      (jsLength (jsTrim raw) ≤ 5 →
        (∀ c ∈ (jsTrim raw).data, ¬ (0x1000 ≤ c.toNat ∧ c.toNat ≤ 0x109F)) →
        m.lang = "en") :=
  (ask_returns_detected_language (exEnv Real.sqrt) exAmbient (some "hi") exWorld).2.2
    "Hello! How can I help you?" none (1 / 2 * 500 + 300)
    ⟨"2024-05-01T10:00:00+00:00", "hi", "en", some 1, .num 1, "Hello! How can I help you?"⟩
    (by rw [ask_hi_example]) (by rw [ask_hi_example]; rfl) (by simp)

/-! ## The index built at start-up: alignment -/

theorem lookupEmbeddings_nil {α : Type} (key : String) :
    lookupEmbeddings ([] : List (String × List (List α))) key = none := rfl

theorem lookupEmbeddings_cons {α : Type} (k : String) (vs : List (List α))
    (rest : List (String × List (List α))) (key : String) :
    lookupEmbeddings ((k, vs) :: rest) key =
      if k = key then some vs else lookupEmbeddings rest key := by
  by_cases h : k = key
  · simp [lookupEmbeddings, h]
  · simp [lookupEmbeddings, List.find?_cons, h]

theorem lookupEmbeddings_pushTo {α : Type} (lang key : String) (vec : List α) :
    ∀ index : List (String × List (List α)),
      lookupEmbeddings (pushTo lang vec index) key =
        if lang = key then (lookupEmbeddings index key).map (fun vs => vs ++ [vec])
        else lookupEmbeddings index key := by
  intro index
  induction index with
  | nil => simp [pushTo, lookupEmbeddings_nil]
  | cons hd rest ih =>
    obtain ⟨k, vs⟩ := hd
    by_cases hk : k = lang
    · subst hk
      by_cases hkey : k = key
      · simp [pushTo, lookupEmbeddings_cons, hkey]
      · simp [pushTo, lookupEmbeddings_cons, hkey]
    · have hk' : (k == lang) = false := by simpa using hk
      simp only [pushTo, hk', Bool.false_eq_true, if_false, lookupEmbeddings_cons, ih]
      by_cases hkey : k = key
      · have hne : ¬ lang = key := fun h => hk (hkey.trans h.symm)
        simp [hkey, hne]
      · simp [hkey]

theorem lookupEmbeddings_append_singleton {α : Type} (lang key : String) (vec : List α) :
    ∀ index : List (String × List (List α)),
      lookupEmbeddings (index ++ [(lang, [vec])]) key =
        match lookupEmbeddings index key with
        | some vs => some vs
        | none => if lang = key then some [vec] else none := by
  intro index
  induction index with
  | nil => simp [lookupEmbeddings_nil, lookupEmbeddings_cons]
  | cons hd rest ih =>
    obtain ⟨k, vs⟩ := hd
    by_cases hkey : k = key
    · simp [lookupEmbeddings_cons, hkey]
    · simp only [List.cons_append, lookupEmbeddings_cons, hkey, if_false, ih]

/-- One step of the start-up loop appends the vector to the bucket of its
language and leaves the other buckets as they were. -/
theorem lookupEmbeddings_pushEmbedding {α : Type} (index index' : List (String × List (List α)))
    (lang key : String) (vec : List α) (h : pushEmbedding index lang vec = some index') :
    (lookupEmbeddings index' key).getD [] =
      (lookupEmbeddings index key).getD [] ++ (if lang = key then [vec] else []) := by
  unfold pushEmbedding at h
  split at h
  · rename_i vs hvs
    simp only [Option.some.injEq] at h
    subst h
    rw [lookupEmbeddings_pushTo]
    by_cases hkey : lang = key
    · subst hkey
      simp [hvs]
    · simp [hkey]
  · rename_i hnone
    split at h
    · exact absurd h (by simp)
    · simp only [Option.some.injEq] at h
      subst h
      rw [lookupEmbeddings_append_singleton]
      by_cases hkey : lang = key
      · subst hkey
        simp [hnone]
      · cases hl : lookupEmbeddings index key <;> simp [hkey]

/-- The invariant of the start-up loop: the bucket of a language grows by the
embeddings of the questions of the entries of that language, in corpus order. -/
theorem initializeLoop_aligned {α : Type} (featureExtractor : String → Option (List α))
    (key : String) :
    ∀ (corpus : List FaqEntry) (index index' : List (String × List (List α))),
      initializeLoop featureExtractor corpus index = some index' →
      ((lookupEmbeddings index' key).getD []).map some =
        ((lookupEmbeddings index key).getD []).map some ++
          (corpus.filter (fun f => f.lang == key)).map (fun f => featureExtractor f.question) := by
  intro corpus
  induction corpus with
  | nil =>
    intro index index' h
    simp only [initializeLoop, Option.some.injEq] at h
    subst h
    simp
  | cons item rest ih =>
    intro index index' h
    simp only [initializeLoop] at h
    split at h
    · exact absurd h (by simp)
    · rename_i emb hemb
      split at h
      · exact absurd h (by simp)
      · rename_i next hnext
        rw [ih next index' h, lookupEmbeddings_pushEmbedding index next item.lang key emb hnext]
        by_cases hkey : item.lang = key
        · simp [List.filter_cons, hkey, hemb]
        · simp [List.filter_cons, hkey]

theorem embLang_aligned {α : Type} (env : Env α)
    (bootExtractor : String → Option (List α)) (lang : String)
    (hinit : initializeAI bootExtractor env.customerSupportData = some env.questionEmbeddings) :
    (embLang env lang).map some =
      (faqLang env lang).map (fun f => bootExtractor f.question) := by
  have h := initializeLoop_aligned bootExtractor lang env.customerSupportData []
    env.questionEmbeddings hinit
  simpa [embLang, faqLang, lookupEmbeddings_nil] using h

theorem embLang_length {α : Type} (env : Env α)
    (bootExtractor : String → Option (List α)) (lang : String)
    (hinit : initializeAI bootExtractor env.customerSupportData = some env.questionEmbeddings) :
    (embLang env lang).length = (faqLang env lang).length := by
  have h := congrArg List.length (embLang_aligned env bootExtractor lang hinit)
  simpa using h

/-- C15: when `initializeAI` has run over the corpus, for every language code
(a string that is not the name of an inherited member) the vector list of the
index has the same length as the corpus entries of that language in corpus
order, and its i-th vector is the embedding computed for the question of the
i-th such entry. -/
theorem initializeAI_aligned {α : Type} (env : Env α)
    (bootExtractor : String → Option (List α)) (lang : String)
    (hinit : initializeAI bootExtractor env.customerSupportData = some env.questionEmbeddings)
    (_hlang : inheritedKeys.contains lang = false) :
    (embLang env lang).length = (faqLang env lang).length ∧
    (∀ (i : Nat) (f : FaqEntry), (faqLang env lang).get? i = some f →
      ∃ v : List α, (embLang env lang).get? i = some v ∧ bootExtractor f.question = some v) := by
  refine ⟨embLang_length env bootExtractor lang hinit, ?_⟩
  intro i f hf
  have h := congrArg (fun l => l.get? i) (embLang_aligned env bootExtractor lang hinit)
  simp only [List.get?_eq_getElem?, List.getElem?_map] at h hf
  rw [hf] at h
  cases hv : (embLang env lang)[i]? with
  | none =>
    rw [hv] at h
    simp at h
  | some v =>
    rw [hv] at h
    simp only [Option.map_some', Option.some.injEq] at h
    exact ⟨v, by simp [hv], h.symm⟩

/-- C15, worked example: the `en` bucket of the example index. -/
theorem initializeAI_aligned_witness :
    (embLang (exEnv Real.sqrt) "en").length = (faqLang (exEnv Real.sqrt) "en").length ∧
    (∀ (i : Nat) (f : FaqEntry), (faqLang (exEnv Real.sqrt) "en").get? i = some f →
      ∃ v : List ℝ, (embLang (exEnv Real.sqrt) "en").get? i = some v ∧
        exExtractor f.question = some v) :=
  initializeAI_aligned (exEnv Real.sqrt) exExtractor "en" (exEnv_initialized Real.sqrt)
    (by decide)

/-- The scan returns either its initial state or a position of the bucket. -/
theorem scan_index {α : Type} [LinearOrderedField α] (sqrt : α → α) (qVec : List α)
    (bucket : List (List α)) :
    scan sqrt qVec bucket = (.num (-1), -1) ∨
    ∃ j : Nat, j < bucket.length ∧ (scan sqrt qVec bucket).2 = (j : Int) := by
  unfold scan
  rcases scanFrom_spec sqrt qVec bucket 0 (.num (-1)) (-1) with
    ⟨heq, -⟩ | ⟨j, vec, hj, heq, -, -, -⟩
  · left; exact heq
  · right
    refine ⟨j, ?_, by rw [heq]; simp⟩
    rw [List.get?_eq_getElem?] at hj
    exact (List.getElem?_eq_some.mp hj).1

/-- C17: with the index built by `initializeAI` from the corpus, a scan that
ends with `maxSim > 0.6` ends with `bestIdx` a valid index of `faqLang`, so an
entry stands at the best index, and a query with no exact match whose
embedding is computed gets that entry as a similarity match. -/
theorem ask_best_index_valid {α : Type} [LinearOrderedField α] (env : Env α)
    (amb : Ambient α) (raw : String) (w : World α) (qVec : List α)
    (bootExtractor : String → Option (List α))
    (hinit : initializeAI bootExtractor env.customerSupportData = some env.questionEmbeddings)
    (hgt : (scan env.sqrt qVec (embLang env (detectedLang env (jsTrim raw)))).1.gt
      (.num (6 / 10)) = true) :
    0 ≤ (scan env.sqrt qVec (embLang env (detectedLang env (jsTrim raw)))).2 ∧
    (scan env.sqrt qVec (embLang env (detectedLang env (jsTrim raw)))).2 <
      ((faqLang env (detectedLang env (jsTrim raw))).length : Int) ∧
    ∃ m : FaqEntry,
      jsIndex (faqLang env (detectedLang env (jsTrim raw)))
        (scan env.sqrt qVec (embLang env (detectedLang env (jsTrim raw)))).2 = some m ∧
      (jsTrim raw ≠ "" →
        (∀ f ∈ env.customerSupportData, ¬ (f.lang = detectedLang env (jsTrim raw) ∧
          env.toLowerCase f.question = env.toLowerCase (jsTrim raw))) →
        env.featureExtractor (jsTrim raw) = some qVec →
        (ask env amb (some raw) w).1 = .reply m.answer m.image (amb.random * 500 + 300) ∧
        (ask env amb (some raw) w).2.logFiles = w.logFiles ++
          [(amb.day, ⟨amb.timestamp, jsTrim raw, detectedLang env (jsTrim raw), some m.id,
            (scan env.sqrt qVec (embLang env (detectedLang env (jsTrim raw)))).1,
            m.answer⟩)]) := by
  rcases scan_index env.sqrt qVec (embLang env (detectedLang env (jsTrim raw))) with
    h | ⟨j, hj, hidx⟩
  · rw [h] at hgt
    simp only [JSNum.gt_num, decide_eq_true_eq] at hgt
    have : (-1 : α) < 6 / 10 := by norm_num
    exact absurd hgt (not_lt.mpr this.le)
  · rw [embLang_length env bootExtractor _ hinit] at hj
    have hm : jsIndex (faqLang env (detectedLang env (jsTrim raw)))
        (scan env.sqrt qVec (embLang env (detectedLang env (jsTrim raw)))).2 =
        some ((faqLang env (detectedLang env (jsTrim raw))).get ⟨j, hj⟩) := by
      rw [hidx]
      simp [jsIndex, List.getElem?_eq_getElem hj]
    refine ⟨by rw [hidx]; exact Int.natCast_nonneg j, by rw [hidx]; exact_mod_cast hj,
      _, hm, ?_⟩
    intro hq hno hemb
    rw [ask_of_similarity_match env amb raw w qVec _ hq
      (find?_isExact_eq_none env (jsTrim raw) hno) hemb hgt hm]
    exact ⟨rfl, rfl⟩

/-- C17, worked example: the scan for `opening hours please` ends above 0.6
at a valid index of `faqLang`. -/
theorem ask_best_index_valid_witness :
    (scan (exEnv Real.sqrt).sqrt [3 / 5, 4 / 5]
      (embLang (exEnv Real.sqrt)
        (detectedLang (exEnv Real.sqrt) (jsTrim "opening hours please")))).1.gt
      (.num (6 / 10)) = true ∧
    0 ≤ (scan (exEnv Real.sqrt).sqrt [3 / 5, 4 / 5]
      (embLang (exEnv Real.sqrt)
        (detectedLang (exEnv Real.sqrt) (jsTrim "opening hours please")))).2 ∧
    (scan (exEnv Real.sqrt).sqrt [3 / 5, 4 / 5]
      (embLang (exEnv Real.sqrt)
        (detectedLang (exEnv Real.sqrt) (jsTrim "opening hours please")))).2 <
      ((faqLang (exEnv Real.sqrt)
        (detectedLang (exEnv Real.sqrt) (jsTrim "opening hours please"))).length : Int) :=
  have hlang : detectedLang (exEnv Real.sqrt) (jsTrim "opening hours please") = "en" := by
    decide
  have hgt : (scan (exEnv Real.sqrt).sqrt [3 / 5, 4 / 5]
      (embLang (exEnv Real.sqrt)
        (detectedLang (exEnv Real.sqrt) (jsTrim "opening hours please")))).1.gt
      (.num (6 / 10)) = true := by
    rw [hlang, exEnv_embLang_en]
    have h : scan (exEnv Real.sqrt).sqrt [3 / 5, 4 / 5] [[0, 1], [3 / 5, 4 / 5]] =
        (JSNum.num (1 : ℝ), 1) := scan_match_example
    rw [h]
    norm_num [JSNum.gt_num]
  have h := ask_best_index_valid (exEnv Real.sqrt) exAmbient "opening hours please" exWorld
    [3 / 5, 4 / 5] exExtractor (exEnv_initialized Real.sqrt) hgt
  ⟨hgt, h.1, h.2.1⟩

/-! ## The range of the similarity score -/

theorem cauchy_schwarz_step {α : Type} [LinearOrderedField α] (d p q x y : α)
    (h : d * d ≤ p * q) (hp : 0 ≤ p) (hq : 0 ≤ q) :
    (d + x * y) * (d + x * y) ≤ (p + x * x) * (q + y * y) := by
  have h1 : (2 * d * x * y) ^ 2 ≤ (p * y ^ 2 + q * x ^ 2) ^ 2 := by
    have hxy : 0 ≤ (x * y) ^ 2 := sq_nonneg _
    have h2 := mul_le_mul_of_nonneg_right h hxy
    nlinarith [sq_nonneg (p * y ^ 2 - q * x ^ 2)]
  have h2 : 0 ≤ p * y ^ 2 + q * x ^ 2 := by positivity
  have h3 := (abs_le_of_sq_le_sq' h1 h2).2
  nlinarith

/-- The invariant of the loop of `cosineSimilarity`: the square of `dot` is at
most `na * nb`, and `na`, `nb` are not negative. -/
theorem cosineLoop_cauchy_schwarz {α : Type} [LinearOrderedField α] (a : List α) :
    ∀ (b : List α) (d p q d' p' q' : α),
      cosineLoop a b (d, p, q) = some (d', p', q') →
      d * d ≤ p * q → 0 ≤ p → 0 ≤ q →
      d' * d' ≤ p' * q' ∧ 0 ≤ p' ∧ 0 ≤ q' := by
  induction a with
  | nil =>
    intro b d p q d' p' q' h hd hp hq
    simp only [cosineLoop, Option.some.injEq, Prod.mk.injEq] at h
    obtain ⟨rfl, rfl, rfl⟩ := h
    exact ⟨hd, hp, hq⟩
  | cons x a ih =>
    intro b d p q d' p' q' h hd hp hq
    cases b with
    | nil => simp [cosineLoop] at h
    | cons y b =>
      simp only [cosineLoop] at h
      exact ih b _ _ _ _ _ _ h (cauchy_schwarz_step d p q x y hd hp hq)
        (add_nonneg hp (mul_self_nonneg x)) (add_nonneg hq (mul_self_nonneg y))

/-- Over the reals every similarity is `NaN` or a number of `[-1, 1]`. -/
theorem cosineSimilarity_range (a b : List ℝ) :
    cosineSimilarity Real.sqrt a b = .nan ∨
    ∃ s : ℝ, cosineSimilarity Real.sqrt a b = .num s ∧ -1 ≤ s ∧ s ≤ 1 := by
  unfold cosineSimilarity
  cases hloop : cosineLoop a b (0, 0, 0) with
  | none => left; rfl
  | some acc =>
    obtain ⟨d, p, q⟩ := acc
    obtain ⟨hd, hp, hq⟩ := cosineLoop_cauchy_schwarz a b 0 0 0 d p q hloop
      (by simp) le_rfl le_rfl
    simp only [JSNum.div]
    by_cases hden : Real.sqrt p * Real.sqrt q = 0
    · left
      have hpq : p * q = 0 := by
        rcases mul_eq_zero.mp hden with h | h
        · rw [(Real.sqrt_eq_zero hp).mp h, zero_mul]
        · rw [(Real.sqrt_eq_zero hq).mp h, mul_zero]
      have hd0 : d = 0 := by
        rw [hpq] at hd
        exact mul_self_eq_zero.mp (le_antisymm hd (mul_self_nonneg d))
      simp [hden, hd0]
    · right
      have hnn : 0 ≤ Real.sqrt p * Real.sqrt q :=
        mul_nonneg (Real.sqrt_nonneg p) (Real.sqrt_nonneg q)
      have hpos : 0 < Real.sqrt p * Real.sqrt q := lt_of_le_of_ne hnn (Ne.symm hden)
      have hsq : (Real.sqrt p * Real.sqrt q) ^ 2 = p * q := by
        rw [mul_pow, Real.sq_sqrt hp, Real.sq_sqrt hq]
      have habs := abs_le_of_sq_le_sq' (by rw [hsq, sq]; exact hd : d ^ 2 ≤
        (Real.sqrt p * Real.sqrt q) ^ 2) hnn
      refine ⟨d / (Real.sqrt p * Real.sqrt q), by simp [hden], ?_, ?_⟩
      · rw [le_div_iff₀ hpos]
        linarith [habs.1]
      · rw [div_le_one hpos]
        exact habs.2

theorem scan_score_range (qVec : List ℝ) (bucket : List (List ℝ))
    (hgt : (scan Real.sqrt qVec bucket).1.gt (.num (6 / 10)) = true) :
    ∃ s : ℝ, (scan Real.sqrt qVec bucket).1 = .num s ∧ 6 / 10 < s ∧ s ≤ 1 := by
  rcases scan_value Real.sqrt qVec bucket with h | ⟨vec, -, h⟩
  · rw [h] at hgt
    simp only [JSNum.gt_num, decide_eq_true_eq] at hgt
    norm_num at hgt
  · rcases cosineSimilarity_range qVec vec with hnan | ⟨s, hs, -, hle⟩
    · rw [h, hnan] at hgt
      simp [JSNum.gt] at hgt
    · rw [h, hs] at hgt ⊢
      simp only [JSNum.gt_num, decide_eq_true_eq] at hgt
      exact ⟨s, rfl, hgt, hle⟩

/-- The square root of the squared norm of `exUnitF32`, rounded to the nearest
double: it is below the exact root. -/
theorem sqrtBinary64_exUnitF32 :
    sqrtBinary64 (4398046805745 / 4398046511104) = 4503599778226685 / 4503599627370496 := by
  have hnum : ((4398046805745 : ℚ) / 4398046511104).num = 4398046805745 := by norm_num
  have hden : ((4398046805745 : ℚ) / 4398046511104).den = 4398046511104 := by norm_num
  have hbits : sqrtBinary64Bits 4398046805745 4398046511104 = (4503599778226685, -52) := by
    decide
  have hpos : ¬ ((4398046805745 : ℚ) / 4398046511104 ≤ 0) := by norm_num
  have htn : Int.toNat 4398046805745 = 4398046805745 := rfl
  rw [sqrtBinary64, if_neg hpos, hnum, hden, htn, hbits]
  norm_num

/-- With the square root rounded to the nearest double, the similarity of
`exUnitF32` with itself is above 1. -/
theorem cosineSimilarity_exUnitF32 :
    cosineSimilarity sqrtBinary64 exUnitF32 exUnitF32 =
      .num (4398046805745 / 4398046511104 /
        (4503599778226685 / 4503599627370496 * (4503599778226685 / 4503599627370496))) := by
  have hna : (0 : ℚ) + 174159 / 262144 * (174159 / 262144) +
      1567431 / 2097152 * (1567431 / 2097152) = 4398046805745 / 4398046511104 := by
    norm_num
  simp only [cosineSimilarity, exUnitF32, cosineLoop, JSNum.div, hna, sqrtBinary64_exUnitF32]
  rw [if_pos (by norm_num)]

/-- C12 as stated fails on rounded values: with `Math.sqrt` rounded to the
nearest double, a query that is not an exact match and whose embedding is the
normalised float32 vector of an entry gets a similarity match whose logged
`similarityScore` is above 1.  (In the doubles of the code, where the products
and the quotient are rounded too, that score is 1.0000000000000002.) -/
theorem similarity_score_above_one_counterexample :
    ∃ s : ℚ, 1 < s ∧
      cosineSimilarity sqrtBinary64 exUnitF32 exUnitF32 = .num s ∧
      (ask roundedEnv exAmbient (some "opening  hours") exWorld).1 =
        .reply "We are open from 9 to 5." none (1 / 2 * 500 + 300) ∧
      (ask roundedEnv exAmbient (some "opening  hours") exWorld).2.logFiles =
        [("2024-05-01", ⟨"2024-05-01T10:00:00+00:00", "opening  hours", "en", some 1,
          .num s, "We are open from 9 to 5."⟩)] := by
  have hlang : detectedLang roundedEnv (jsTrim "opening  hours") = "en" := by decide
  have hemb : embLang roundedEnv "en" = [exUnitF32] := rfl
  have hfaq : faqLang roundedEnv "en" =
      [⟨1, "en", "Opening hours", "We are open from 9 to 5.", none⟩] := rfl
  have hscan : scan roundedEnv.sqrt exUnitF32
      (embLang roundedEnv (detectedLang roundedEnv (jsTrim "opening  hours"))) =
      (.num (4398046805745 / 4398046511104 /
        (4503599778226685 / 4503599627370496 * (4503599778226685 / 4503599627370496))), 0) := by
    rw [hlang, hemb]
    have hcos : cosineSimilarity roundedEnv.sqrt exUnitF32 exUnitF32 =
        .num (4398046805745 / 4398046511104 /
          (4503599778226685 / 4503599627370496 * (4503599778226685 / 4503599627370496))) :=
      cosineSimilarity_exUnitF32
    norm_num [scan, scanFrom_cons, scanFrom_nil, hcos, JSNum.gt_num]
  refine ⟨4398046805745 / 4398046511104 /
      (4503599778226685 / 4503599627370496 * (4503599778226685 / 4503599627370496)),
    by norm_num, cosineSimilarity_exUnitF32, ?_, ?_⟩
  · rw [ask_of_similarity_match roundedEnv exAmbient "opening  hours" exWorld exUnitF32
      ⟨1, "en", "Opening hours", "We are open from 9 to 5.", none⟩ (by decide) (by decide) rfl
      (by rw [hscan]; norm_num [JSNum.gt_num])
      (by rw [hscan, hlang, hfaq]; rfl)]
    rfl
  · rw [ask_of_similarity_match roundedEnv exAmbient "opening  hours" exWorld exUnitF32
      ⟨1, "en", "Opening hours", "We are open from 9 to 5.", none⟩ (by decide) (by decide) rfl
      (by rw [hscan]; norm_num [JSNum.gt_num])
      (by rw [hscan, hlang, hfaq]; rfl), hscan, hlang]
    rfl

/-- The score of a logged match: 1 on the exact path, and on the similarity
path the score of the scan, which passed the test `maxSim > 0.6`. -/
theorem ask_match_score {α : Type} [LinearOrderedField α] (env : Env α) (amb : Ambient α)
    (question : Option String) (w : World α) (e : LogEntry α)
    (hlog : (ask env amb question w).2.logFiles = w.logFiles ++ [(amb.day, e)])
    (hid : e.faqId ≠ none) :
    e.similarityScore = .num 1 ∨
    ∃ (qVec : List α) (bucket : List (List α)),
      e.similarityScore = (scan env.sqrt qVec bucket).1 ∧
      (scan env.sqrt qVec bucket).1.gt (.num (6 / 10)) = true := by
  have hne : ∀ (l : List (String × LogEntry α)) (x : String × LogEntry α),
      l ≠ l ++ [x] := by
    intro l x h
    have := congrArg List.length h
    simp at this
  rcases ask_cases env question with h | ⟨raw, -, -, h | h | h | h⟩
  · rw [h amb w] at hlog
    exact absurd hlog (hne _ _)
  · obtain ⟨x, -, h⟩ := h
    rw [(h amb w).2] at hlog
    simp only [List.append_cancel_left_eq, List.cons.injEq, Prod.mk.injEq, true_and,
      and_true] at hlog
    left
    rw [← hlog]
  · obtain ⟨-, -, h⟩ := h
    rw [(h amb w).2] at hlog
    exact absurd hlog (hne _ _)
  · obtain ⟨qVec, m, -, -, hgt, -, h⟩ := h
    rw [(h amb w).2] at hlog
    simp only [List.append_cancel_left_eq, List.cons.injEq, Prod.mk.injEq, true_and,
      and_true] at hlog
    right
    exact ⟨qVec, _, by rw [← hlog], hgt⟩
  · obtain ⟨qVec, -, -, -, h⟩ := h
    rw [(h amb w).2] at hlog
    simp only [List.append_cancel_left_eq, List.cons.injEq, Prod.mk.injEq, true_and,
      and_true] at hlog
    rw [← hlog] at hid
    exact absurd rfl hid

/-- C12, amended: over the reals the similarity of two non-zero vectors of the
same length is a number of `[-1, 1]`.  Whenever the handler logs a match (a
non-null `faqId`), the logged `similarityScore` is greater than 0.6, whatever
the arithmetic and the square root; and it is a number `s` with
`0.6 < s ≤ 1` when the arithmetic is that of the reals with the exact square
root.  The bound `s ≤ 1` is not stated for rounded values. -/
theorem similarity_score_range {α : Type} [LinearOrderedField α] (a b : List ℝ)
    (env : Env α) (amb : Ambient α) (question : Option String) (w : World α)
    (e : LogEntry α) (envR : Env ℝ) (ambR : Ambient ℝ) (questionR : Option String)
    (wR : World ℝ) (eR : LogEntry ℝ) :
    (a.length = b.length → (∃ x ∈ a, x ≠ 0) → (∃ y ∈ b, y ≠ 0) →
      ∃ s : ℝ, cosineSimilarity Real.sqrt a b = .num s ∧ -1 ≤ s ∧ s ≤ 1) ∧
    ((ask env amb question w).2.logFiles = w.logFiles ++ [(amb.day, e)] →
      e.faqId ≠ none →
      e.similarityScore.gt (.num (6 / 10)) = true) ∧
    (envR.sqrt = Real.sqrt →
      (ask envR ambR questionR wR).2.logFiles = wR.logFiles ++ [(ambR.day, eR)] →
      eR.faqId ≠ none →
      ∃ s : ℝ, eR.similarityScore = .num s ∧ 6 / 10 < s ∧ s ≤ 1) := by
  refine ⟨?_, ?_, ?_⟩
  · intro hlen ha hb
    rcases cosineSimilarity_range a b with hnan | h
    · exfalso
      have hpa := sum_squares_pos a ha
      have hpb := sum_squares_pos b hb
      have hden : Real.sqrt (a.map (fun x => x * x)).sum *
          Real.sqrt (b.map (fun y => y * y)).sum ≠ 0 :=
        (mul_pos (Real.sqrt_pos.mpr hpa) (Real.sqrt_pos.mpr hpb)).ne.symm
      simp only [cosineSimilarity, cosineLoop_of_length_eq a b 0 0 0 hlen, zero_add,
        JSNum.div, if_pos hden] at hnan
      cases hnan
    · exact h
  · intro hlog hid
    rcases ask_match_score env amb question w e hlog hid with h | ⟨qVec, bucket, h, hgt⟩
    · rw [h]
      simp only [JSNum.gt_num, decide_eq_true_eq]
      norm_num
    · rw [h]
      exact hgt
  · intro hsqrt hlog hid
    rcases ask_match_score envR ambR questionR wR eR hlog hid with h | ⟨qVec, bucket, h, hgt⟩
    · rw [h]
      exact ⟨1, rfl, by norm_num, le_rfl⟩
    · rw [h]
      rw [hsqrt] at hgt ⊢
      exact scan_score_range qVec bucket hgt

/-- C12, worked example: the vectors `(3, 4)` and `(1, 0)`, and the log entry
of the similarity match of `opening hours please`. -/
theorem similarity_score_range_witness :
    (∃ s : ℝ, cosineSimilarity Real.sqrt [3, 4] [1, 0] = .num s ∧ -1 ≤ s ∧ s ≤ 1) ∧
    (JSNum.num (1 : ℝ)).gt (.num (6 / 10)) = true ∧
    (∃ s : ℝ, JSNum.num (1 : ℝ) = .num s ∧ 6 / 10 < s ∧ s ≤ 1) :=
  have h := similarity_score_range [3, 4] [1, 0] (exEnv Real.sqrt) exAmbient
    (some "opening hours please") exWorld
    ⟨"2024-05-01T10:00:00+00:00", "opening hours please", "en", some 2, .num 1,
      "We are open from 9 to 5."⟩
    (exEnv Real.sqrt) exAmbient (some "opening hours please") exWorld
    ⟨"2024-05-01T10:00:00+00:00", "opening hours please", "en", some 2, .num 1,
      "We are open from 9 to 5."⟩
  ⟨h.1 rfl ⟨3, by simp, by norm_num⟩ ⟨1, by simp, by norm_num⟩,
    h.2.1 (by rw [ask_similarity_example]; rfl) (by simp),
    h.2.2 rfl (by rw [ask_similarity_example]; rfl) (by simp)⟩

end SimilarityBot
